import Mathlib

/-!
Shallow embedding of the CHIP-8 interpreter core (`src/emulator/cpu.rs`).

Machine bytes and words are modelled as `Nat` with explicit `% 256` /
`% 65536` where the Rust code performs wrapping `u8` / `u16` arithmetic.
Rust array indexing (which panics when the index is out of bounds) and the
`panic!` calls of the interpreter are modelled by `Except CpuError`:
a Rust panic corresponds to an `Except.error` outcome of the step.
The `Vec<u16>` call stack is a `List Nat` whose head is the top of the
stack.  The `ThreadRng` random source is modelled as an explicit
pre-sampled stream `rng : Nat -> Nat` together with a cursor `rngIdx`.
-/

/-- The fatal outcomes of the interpreter: the panic on an all-zero
opcode, the panics on unmatched secondary dispatch (unrecognized opcode),
the panic on popping an empty call stack, and the Rust bounds-check panic
on an out-of-range array index. -/
inductive CpuError where
  | opcodeZero : CpuError
  | unrecognizedOpcode : Nat → CpuError
  | stackUnderflow : CpuError
  | indexOutOfBounds : CpuError
deriving DecidableEq, Repr

def SCREEN_WIDTH : Nat := 64

def SCREEN_HEIGHT : Nat := 32

def PROGRAM_START : Nat := 0x200

def FONTSET_START_ADDRESS : Nat := 0x0

/-- The machine state of `struct Cpu`.  Arrays are total functions from
`Nat`; the valid index ranges (4096 bytes of memory, 16 registers, 2048
screen cells, 16 keys) are enforced at the access points exactly where
the Rust code's array indexing enforces them. -/
structure Cpu where
  memory : Nat → Nat
  opcode : Nat
  v : Nat → Nat
  i : Nat
  pc : Nat
  screen : Nat → Nat
  delay_timer : Nat
  sound_timer : Nat
  stack : List Nat
  keys : Nat → Bool
  draw_flag : Bool
  rng : Nat → Nat
  rngIdx : Nat
  pressed_key_index : Option Nat

/-- Assignment `self.v[x] = value` (the decoded selector `x` is always
below 16 at every call site of the Rust code). -/
def setV (c : Cpu) (x value : Nat) : Cpu :=
  { c with v := fun j => if j = x then value else c.v j }

/-- `pub fn read(&self, address: u16) -> u8`: `self.memory[address as usize]`,
panicking (error) when the address is not below 4096. -/
def Cpu.read (c : Cpu) (address : Nat) : Except CpuError Nat :=
  if address < 4096 then .ok (c.memory address) else .error .indexOutOfBounds

/-- `pub fn write(&mut self, address: u16, value: u8)`. -/
def Cpu.write (c : Cpu) (address value : Nat) : Except CpuError Cpu :=
  if address < 4096 then
    .ok { c with memory := fun a => if a = address then value else c.memory a }
  else .error .indexOutOfBounds

/-- Access `self.keys[idx]`, panicking (error) when `idx` is not below 16. -/
def Cpu.keyGet (c : Cpu) (idx : Nat) : Except CpuError Bool :=
  if idx < 16 then .ok (c.keys idx) else .error .indexOutOfBounds

/-- `pub fn tick_timers(&mut self)`. -/
def tick_timers (c : Cpu) : Cpu :=
  let c1 := if c.delay_timer > 0 then { c with delay_timer := c.delay_timer - 1 } else c
  if c1.sound_timer > 0 then { c1 with sound_timer := c1.sound_timer - 1 } else c1

/-- `fn get_screen_index(x: u8, y: u8) -> usize`. -/
def get_screen_index (x y : Nat) : Nat :=
  (y % SCREEN_HEIGHT) * SCREEN_WIDTH + x % SCREEN_WIDTH

/-- `fn set_screen_pixel(&mut self, x: u8, y: u8, value: u8) -> bool`:
XORs `0xFF` into the addressed cell when `value > 0` (else XORs `0`),
and reports whether the cell changed. -/
def set_screen_pixel (c : Cpu) (x y value : Nat) : Cpu × Bool :=
  let old := c.screen (get_screen_index x y)
  let c1 :=
    if value > 0 then
      { c with screen := fun p => if p = get_screen_index x y then c.screen p ^^^ 0xFF else c.screen p }
    else
      { c with screen := fun p => if p = get_screen_index x y then c.screen p ^^^ 0x0 else c.screen p }
  (c1, if c1.screen (get_screen_index x y) = old then false else true)

/-- `fn inc_pc(&mut self)`: `self.pc += 2` (wrapping `u16`). -/
def inc_pc (c : Cpu) : Cpu :=
  { c with pc := (c.pc + 2) % 65536 }

/-- `0x00E0`: clear the screen. -/
def op_00e0 (c : Cpu) : Cpu :=
  inc_pc { c with screen := fun _ => 0, draw_flag := true }

/-- `0x00EE`: return from subroutine; panics (error) on an empty stack. -/
def op_00ee (c : Cpu) : Except CpuError Cpu :=
  match c.stack with
  | value :: rest => .ok (inc_pc { c with pc := value, stack := rest })
  | [] => .error .stackUnderflow

/-- `0x1NNN`: jump. -/
def op_1nnn (c : Cpu) (nnn : Nat) : Cpu :=
  { c with pc := nnn }

/-- `0x2NNN`: call subroutine (pushes the current PC, the call site). -/
def op_2nnn (c : Cpu) (nnn : Nat) : Cpu :=
  { c with stack := c.pc :: c.stack, pc := nnn }

/-- `0x3XNN`: skip next instruction if VX equals NN. -/
def op_3xnn (c : Cpu) (x nn : Nat) : Cpu :=
  inc_pc (if c.v x = nn then inc_pc c else c)

/-- `0x4XNN`: skip next instruction if VX is not NN. -/
def op_4xnn (c : Cpu) (x nn : Nat) : Cpu :=
  inc_pc (if c.v x ≠ nn then inc_pc c else c)

/-- `0x5XY0`: skip next instruction if VX equals VY. -/
def op_5xy0 (c : Cpu) (x y : Nat) : Cpu :=
  inc_pc (if c.v x = c.v y then inc_pc c else c)

/-- `0x6XNN`: VX = NN. -/
def op_6xnn (c : Cpu) (x nn : Nat) : Cpu :=
  inc_pc (setV c x nn)

/-- `0x7XNN`: VX = VX + NN with wrapping `u8` addition. -/
def op_7xnn (c : Cpu) (x nn : Nat) : Cpu :=
  inc_pc (setV c x ((c.v x + nn) % 256))

/-- `0x8XY0`: VX = VY. -/
def op_8xy0 (c : Cpu) (x y : Nat) : Cpu :=
  inc_pc (setV c x (c.v y))

/-- `0x8XY1`: VF reset quirk, then VX = VX OR VY. -/
def op_8xy1 (c : Cpu) (x y : Nat) : Cpu :=
  let c1 := setV c 0xF 0
  inc_pc (setV c1 x (c1.v x ||| c1.v y))

/-- `0x8XY2`: VF reset quirk, then VX = VX AND VY. -/
def op_8xy2 (c : Cpu) (x y : Nat) : Cpu :=
  let c1 := setV c 0xF 0
  inc_pc (setV c1 x (c1.v x &&& c1.v y))

/-- `0x8XY3`: VF reset quirk, then VX = VX XOR VY. -/
def op_8xy3 (c : Cpu) (x y : Nat) : Cpu :=
  let c1 := setV c 0xF 0
  inc_pc (setV c1 x (c1.v x ^^^ c1.v y))

/-- `0x8XY4`: VX = VX + VY (truncated to 8 bits), VF = carry. -/
def op_8xy4 (c : Cpu) (x y : Nat) : Cpu :=
  let sum := c.v x + c.v y
  let carry_flag := if sum > 255 then 1 else 0
  inc_pc (setV (setV c x (sum &&& 0x00FF)) 0xF carry_flag)

/-- `0x8XY5`: VX = VX - VY using wrapping `u8` subtraction
(`overflowing_sub`), VF = 1 when there was no borrow. -/
def op_8xy5 (c : Cpu) (x y : Nat) : Cpu :=
  let diff := (c.v x + 256 - c.v y) % 256
  let overflow := c.v x < c.v y
  inc_pc (setV (setV c x diff) 0xF (if overflow then 0 else 1))

/-- `0x8XY6`: VX = VY (quirk), then VX >>= 1, VF = the bit shifted out. -/
def op_8xy6 (c : Cpu) (x y : Nat) : Cpu :=
  let c1 := setV c x (c.v y)
  let least_bit := c1.v x &&& 0x1
  let carry_flag := if least_bit = 0 then 0 else 1
  inc_pc (setV (setV c1 x (c1.v x >>> 1)) 0xF carry_flag)

/-- `0x8XY7`: VX = VY - VX with wrapping subtraction, VF = no-borrow. -/
def op_8xy7 (c : Cpu) (x y : Nat) : Cpu :=
  let diff := (c.v y + 256 - c.v x) % 256
  let overflow := c.v y < c.v x
  inc_pc (setV (setV c x diff) 0xF (if overflow then 0 else 1))

/-- `0x8XYE`: VX = VY (quirk), then VX <<= 1 (truncated to 8 bits),
VF = the bit shifted out. -/
def op_8xye (c : Cpu) (x y : Nat) : Cpu :=
  let c1 := setV c x (c.v y)
  let most_bit := c1.v x &&& 0x80
  let carry_flag := if most_bit = 0 then 0 else 1
  inc_pc (setV (setV c1 x ((c1.v x <<< 1) % 256)) 0xF carry_flag)

/-- `0x9XY0`: skip next instruction if VX is not VY. -/
def op_9xy0 (c : Cpu) (x y : Nat) : Cpu :=
  inc_pc (if c.v x ≠ c.v y then inc_pc c else c)

/-- `0xANNN`: I = NNN. -/
def op_annn (c : Cpu) (nnn : Nat) : Cpu :=
  inc_pc { c with i := nnn }

/-- `0xBNNN`: PC = NNN + V0 (wrapping `u16`). -/
def op_bnnn (c : Cpu) (nnn : Nat) : Cpu :=
  { c with pc := (nnn + c.v 0) % 65536 }

/-- `0xCXNN`: VX = random byte AND NN; the random byte is the next
element of the pre-sampled stream. -/
def op_cxnn (c : Cpu) (x nn : Nat) : Cpu :=
  let random_num := c.rng c.rngIdx % 256
  inc_pc (setV { c with rngIdx := c.rngIdx + 1 } x (random_num &&& nn))

/-- The column loop of `DXYN` (`for col in 0..8` with the clipping
`break`): XORs the leading bit of `pixel` into the screen at
`(x_pos + col, yy)` and raises VF on a reported collision, shifting
`pixel` left (`u8`) each iteration. -/
def drawCols (c : Cpu) (x_pos yy pixel col : Nat) : Nat → Cpu
  | 0 => c
  | count + 1 =>
    if SCREEN_WIDTH ≤ x_pos + col then c
    else
      let r := set_screen_pixel c (x_pos + col) yy ((pixel &&& 0x80) >>> 7)
      let c1 := if r.2 then setV r.1 0xF 1 else r.1
      drawCols c1 x_pos yy ((pixel <<< 1) % 256) (col + 1) count

/-- The row loop of `DXYN` (`for row in 0..height` with the clipping
`break`): reads the sprite byte at `I + row` and draws its 8 columns. -/
def drawRows (c : Cpu) (x_pos y_pos row : Nat) : Nat → Except CpuError Cpu
  | 0 => .ok c
  | count + 1 =>
    if SCREEN_HEIGHT ≤ y_pos + row then .ok c
    else
      Except.bind (c.read ((c.i + row) % 65536)) (fun pixel =>
        drawRows (drawCols c x_pos (y_pos + row) pixel 0 8) x_pos y_pos (row + 1) count)

/-- `0xDXYN`: draw the `height`-row sprite at `(VX mod 64, VY mod 32)`,
clipping at the screen edges; VF is first cleared and raised on any
reported collision; sets the draw flag and advances PC. -/
def op_dxyn (c : Cpu) (x y height : Nat) : Except CpuError Cpu :=
  let x_pos := c.v x % SCREEN_WIDTH
  let y_pos := c.v y % SCREEN_HEIGHT
  Except.bind (drawRows (setV c 0xF 0) x_pos y_pos 0 height) (fun c2 =>
    .ok (inc_pc { c2 with draw_flag := true }))

/-- `0xEX9E`: skip next instruction if the key indexed by VX is down;
the key access panics (error) when VX is not below 16. -/
def op_ex9e (c : Cpu) (x : Nat) : Except CpuError Cpu :=
  Except.bind (c.keyGet (c.v x)) (fun key =>
    .ok (inc_pc (if key then inc_pc c else c)))

/-- `0xEXA1`: skip next instruction if the key indexed by VX is up. -/
def op_exa1 (c : Cpu) (x : Nat) : Except CpuError Cpu :=
  Except.bind (c.keyGet (c.v x)) (fun key =>
    .ok (inc_pc (if !key then inc_pc c else c)))

/-- `0xFX07`: VX = delay timer. -/
def op_fx07 (c : Cpu) (x : Nat) : Cpu :=
  inc_pc (setV c x c.delay_timer)

/-- The key scan of `FX0A` (`for i in 0..16`): records the index of every
key currently down, later finds overwriting earlier ones. -/
def scanKeys (keys : Nat → Bool) (acc : Option Nat) (idx : Nat) : Nat → Option Nat
  | 0 => acc
  | count + 1 => scanKeys keys (if keys idx then some idx else acc) (idx + 1) count

/-- `0xFX0A`: blocking key read.  With a latched key it waits for its
release, then commits the index to VX and advances PC; with no latched
key it scans the keypad without advancing PC. -/
def op_fx0a (c : Cpu) (x : Nat) : Except CpuError Cpu :=
  match c.pressed_key_index with
  | some key_index =>
    Except.bind (c.keyGet key_index) (fun key =>
      if !key then
        .ok (inc_pc (setV { c with pressed_key_index := none } x key_index))
      else
        .ok c)
  | none => .ok { c with pressed_key_index := scanKeys c.keys none 0 16 }

/-- `0xFX15`: delay timer = VX. -/
def op_fx15 (c : Cpu) (x : Nat) : Cpu :=
  inc_pc { c with delay_timer := c.v x }

/-- `0xFX18`: sound timer = VX. -/
def op_fx18 (c : Cpu) (x : Nat) : Cpu :=
  inc_pc { c with sound_timer := c.v x }

/-- `0xFX1E`: I += VX (wrapping `u16`), no masking of the result. -/
def op_fx1e (c : Cpu) (x : Nat) : Cpu :=
  inc_pc { c with i := (c.i + c.v x) % 65536 }

/-- `0xFX29`: I = font base + VX * 5. -/
def op_fx29 (c : Cpu) (x : Nat) : Cpu :=
  inc_pc { c with i := FONTSET_START_ADDRESS + c.v x * 5 }

/-- `0xFX33`: binary-coded decimal of VX into memory at I, I+1, I+2. -/
def op_fx33 (c : Cpu) (x : Nat) : Except CpuError Cpu :=
  let value := c.v x
  Except.bind (c.write ((c.i + 2) % 65536) (value % 10)) (fun c1 =>
    let value := value / 10
    Except.bind (c1.write ((c1.i + 1) % 65536) (value % 10)) (fun c2 =>
      let value := value / 10
      Except.bind (c2.write c2.i (value % 10)) (fun c3 =>
        .ok (inc_pc c3))))

/-- The store loop of `FX55` (`for offset in 0..x + 1`). -/
def storeLoop (c : Cpu) (offset : Nat) : Nat → Except CpuError Cpu
  | 0 => .ok c
  | count + 1 =>
    Except.bind (c.write ((c.i + offset) % 65536) (c.v offset)) (fun c1 =>
      storeLoop c1 (offset + 1) count)

/-- `0xFX55`: store V0..VX into memory at I; afterwards `self.i += 1`. -/
def op_fx55 (c : Cpu) (x : Nat) : Except CpuError Cpu :=
  Except.bind (storeLoop c 0 (x + 1)) (fun c1 =>
    .ok (inc_pc { c1 with i := (c1.i + 1) % 65536 }))

/-- The load loop of `FX65` (`for offset in 0..x + 1`). -/
def loadLoop (c : Cpu) (offset : Nat) : Nat → Except CpuError Cpu
  | 0 => .ok c
  | count + 1 =>
    Except.bind (c.read ((c.i + offset) % 65536)) (fun value =>
      loadLoop (setV c offset value) (offset + 1) count)

/-- `0xFX65`: load V0..VX from memory at I; afterwards `self.i += 1`. -/
def op_fx65 (c : Cpu) (x : Nat) : Except CpuError Cpu :=
  Except.bind (loadLoop c 0 (x + 1)) (fun c1 =>
    .ok (inc_pc { c1 with i := (c1.i + 1) % 65536 }))

/-- The decode-dispatch body of `run_instruction` on the two fetched
instruction bytes: panic (error) when both bytes are zero, compose the
big-endian opcode, clear the draw flag, record the opcode, and dispatch.
Unmatched secondary patterns under `0x8`, `0xE` and `0xF` panic
(`unrecognizedOpcode`); unmatched low bytes under `0x0` are only logged
and leave the state (and PC) unchanged. -/
def decodeExec (c0 : Cpu) (low high : Nat) : Except CpuError Cpu :=
  let opcode := (low <<< 8) ||| high
  if high = 0 ∧ low = 0 then .error .opcodeZero
  else
    let c := { c0 with draw_flag := false, opcode := opcode }
    if opcode &&& 0xF000 = 0x0000 then
      if opcode &&& 0x00FF = 0x00E0 then .ok (op_00e0 c)
      else if opcode &&& 0x00FF = 0x00EE then op_00ee c
      else .ok c
    else if opcode &&& 0xF000 = 0x1000 then
      .ok (op_1nnn c (opcode &&& 0x0FFF))
    else if opcode &&& 0xF000 = 0x2000 then
      .ok (op_2nnn c (opcode &&& 0x0FFF))
    else if opcode &&& 0xF000 = 0x3000 then
      .ok (op_3xnn c ((opcode &&& 0x0F00) >>> 8) (opcode &&& 0x00FF))
    else if opcode &&& 0xF000 = 0x4000 then
      .ok (op_4xnn c ((opcode &&& 0x0F00) >>> 8) (opcode &&& 0x00FF))
    else if opcode &&& 0xF000 = 0x5000 then
      .ok (op_5xy0 c ((opcode &&& 0x0F00) >>> 8) ((opcode &&& 0x00F0) >>> 4))
    else if opcode &&& 0xF000 = 0x6000 then
      .ok (op_6xnn c ((opcode &&& 0x0F00) >>> 8) (opcode &&& 0x00FF))
    else if opcode &&& 0xF000 = 0x7000 then
      .ok (op_7xnn c ((opcode &&& 0x0F00) >>> 8) (opcode &&& 0x00FF))
    else if opcode &&& 0xF000 = 0x8000 then
      let x := (opcode &&& 0x0F00) >>> 8
      let y := (opcode &&& 0x00F0) >>> 4
      if opcode &&& 0x000F = 0x0000 then .ok (op_8xy0 c x y)
      else if opcode &&& 0x000F = 0x0001 then .ok (op_8xy1 c x y)
      else if opcode &&& 0x000F = 0x0002 then .ok (op_8xy2 c x y)
      else if opcode &&& 0x000F = 0x0003 then .ok (op_8xy3 c x y)
      else if opcode &&& 0x000F = 0x0004 then .ok (op_8xy4 c x y)
      else if opcode &&& 0x000F = 0x0005 then .ok (op_8xy5 c x y)
      else if opcode &&& 0x000F = 0x0006 then .ok (op_8xy6 c x y)
      else if opcode &&& 0x000F = 0x0007 then .ok (op_8xy7 c x y)
      else if opcode &&& 0x000F = 0x000E then .ok (op_8xye c x y)
      else .error (.unrecognizedOpcode opcode)
    else if opcode &&& 0xF000 = 0x9000 then
      .ok (op_9xy0 c ((opcode &&& 0x0F00) >>> 8) ((opcode &&& 0x00F0) >>> 4))
    else if opcode &&& 0xF000 = 0xA000 then
      .ok (op_annn c (opcode &&& 0x0FFF))
    else if opcode &&& 0xF000 = 0xB000 then
      .ok (op_bnnn c (opcode &&& 0x0FFF))
    else if opcode &&& 0xF000 = 0xC000 then
      .ok (op_cxnn c ((opcode &&& 0x0F00) >>> 8) (opcode &&& 0x00FF))
    else if opcode &&& 0xF000 = 0xD000 then
      op_dxyn c ((opcode &&& 0x0F00) >>> 8) ((opcode &&& 0x00F0) >>> 4) (opcode &&& 0x000F)
    else if opcode &&& 0xF000 = 0xE000 then
      let x := (opcode &&& 0x0F00) >>> 8
      if opcode &&& 0x00FF = 0x009E then op_ex9e c x
      else if opcode &&& 0x00FF = 0x00A1 then op_exa1 c x
      else .error (.unrecognizedOpcode opcode)
    else if opcode &&& 0xF000 = 0xF000 then
      let x := (opcode &&& 0x0F00) >>> 8
      if opcode &&& 0x00FF = 0x0007 then .ok (op_fx07 c x)
      else if opcode &&& 0x00FF = 0x000A then op_fx0a c x
      else if opcode &&& 0x00FF = 0x0015 then .ok (op_fx15 c x)
      else if opcode &&& 0x00FF = 0x0018 then .ok (op_fx18 c x)
      else if opcode &&& 0x00FF = 0x001E then .ok (op_fx1e c x)
      else if opcode &&& 0x00FF = 0x0029 then .ok (op_fx29 c x)
      else if opcode &&& 0x00FF = 0x0033 then op_fx33 c x
      else if opcode &&& 0x00FF = 0x0055 then op_fx55 c x
      else if opcode &&& 0x00FF = 0x0065 then op_fx65 c x
      else .error (.unrecognizedOpcode opcode)
    else .error (.unrecognizedOpcode opcode)

/-- `pub fn run_instruction(&mut self)`: fetch the two instruction bytes
at PC and PC + 1 and run the decode-dispatch on them. -/
def run_instruction (c0 : Cpu) : Except CpuError Cpu :=
  Except.bind (c0.read c0.pc) (fun low =>
  Except.bind (c0.read ((c0.pc + 1) % 65536)) (fun high =>
  decodeExec c0 low high))

/-- A machine state with cleared memory, registers, screen and keypad,
PC at the program start, as after `Cpu::new()` but without the font
table (which none of the properties below touch). -/
def baseCpu : Cpu where
  memory := fun _ => 0
  opcode := 0
  v := fun _ => 0
  i := 0
  pc := PROGRAM_START
  screen := fun _ => 0
  delay_timer := 0
  sound_timer := 0
  stack := []
  keys := fun _ => false
  draw_flag := false
  rng := fun _ => 0
  rngIdx := 0
  pressed_key_index := none

/-- Whether a step outcome is a success (no panic surfaced). -/
def isOkE (e : Except CpuError Cpu) : Bool :=
  match e with
  | .ok _ => true
  | .error _ => false

/-- The program counter of a successful outcome (0 on error). -/
def pcOfE (e : Except CpuError Cpu) : Nat :=
  match e with
  | .ok c => c.pc
  | .error _ => 0

/-- The index register of a successful outcome (0 on error). -/
def iOfE (e : Except CpuError Cpu) : Nat :=
  match e with
  | .ok c => c.i
  | .error _ => 0

/-! ### C10: tick_timers touches only the two timers -/

/-- C10: one call to `tick_timers` modifies at most the delay timer and
the sound timer; memory, registers, index register, program counter,
call stack, screen, keypad, draw flag, key-wait latch (and the scratch
opcode and RNG fields) are unchanged. -/
theorem c10_tick_timers (c : Cpu) :
    (tick_timers c).memory = c.memory ∧ (tick_timers c).v = c.v ∧
    (tick_timers c).i = c.i ∧ (tick_timers c).pc = c.pc ∧
    (tick_timers c).stack = c.stack ∧ (tick_timers c).screen = c.screen ∧
    (tick_timers c).keys = c.keys ∧ (tick_timers c).draw_flag = c.draw_flag ∧
    (tick_timers c).pressed_key_index = c.pressed_key_index ∧
    (tick_timers c).opcode = c.opcode ∧ (tick_timers c).rng = c.rng ∧
    (tick_timers c).rngIdx = c.rngIdx := by
  unfold tick_timers
  by_cases h1 : c.delay_timer > 0 <;> by_cases h2 : c.sound_timer > 0 <;>
    simp [h1, h2]

/-! ### C8: 8XY5 borrow flag and wrapping difference -/

/-- C8 counterexample: with X = 0xF the claim fails.  Starting from
VF = 5, V0 = 3, executing `8F05` leaves VF = 1 (the no-borrow flag
overwrites the stored difference), not (5 - 3) mod 256 = 2 as the claim
requires for every register index X. -/
theorem c8_counterexample :
    (op_8xy5 { baseCpu with v := fun j => if j = 15 then 5 else if j = 0 then 3 else 0 } 15 0).v 15 = 1 ∧
    (op_8xy5 { baseCpu with v := fun j => if j = 15 then 5 else if j = 0 then 3 else 0 } 15 0).v 15 ≠ (5 + 256 - 3) % 256 := by
  constructor
  · rfl
  · decide

/-- C8 (amended): for all X, Y, `8XY5` sets VF to 1 iff VX was at least
VY before the operation; and for X other than 0xF the value stored in
VX is the wrapping difference (VX - VY) mod 256 (for X = 0xF the flag
write overwrites the stored difference). -/
theorem c8_amended (c : Cpu) (x y : Nat) (hx : x < 16) (hy : y < 16)
    (hvx : c.v x < 256) (hvy : c.v y < 256) :
    ((op_8xy5 c x y).v 15 = if c.v y ≤ c.v x then 1 else 0) ∧
    (x ≠ 15 → (op_8xy5 c x y).v x = (c.v x + 256 - c.v y) % 256) := by
  unfold op_8xy5 setV inc_pc
  constructor
  · simp only
    by_cases h : c.v x < c.v y
    · simp [h, Nat.not_le.mpr h]
    · simp [h, Nat.not_lt.mp h]
  · intro hne
    simp [hne, Ne.symm hne]

/-- C8 witness for the amended theorem, at X = 2, Y = 3, V2 = 3, V3 = 5:
VF = 0 (borrow) and V2 = (3 - 5) mod 256 = 254. -/
theorem c8_amended_witness :
    ((op_8xy5 { baseCpu with v := fun j => if j = 2 then 3 else if j = 3 then 5 else 0 } 2 3).v 15 =
      if (5 : Nat) ≤ 3 then 1 else 0) ∧
    ((op_8xy5 { baseCpu with v := fun j => if j = 2 then 3 else if j = 3 then 5 else 0 } 2 3).v 2 =
      (3 + 256 - 5) % 256) := by
  have h := c8_amended { baseCpu with v := fun j => if j = 2 then 3 else if j = 3 then 5 else 0 }
    2 3 (by decide) (by decide) (by decide) (by decide)
  exact ⟨h.1, h.2 (by decide)⟩

/-! ### C2: FX55 / FX65 round trip and the index-register increment -/

/-- C2: the code increments I by exactly 1 after `FX55` (and after
`FX65`), not by X + 1 as the documented quirk cited by the source
comment and the specification requires.  With X = 2 and I = 0x300,
`FX55` leaves I = 0x301 while the claim requires 0x303. -/
theorem c2_bug_eval :
    iOfE (op_fx55 { baseCpu with i := 0x300, v := fun j => j + 1 } 2) = 0x301 ∧
    iOfE (op_fx65 { baseCpu with i := 0x300, v := fun j => j + 1 } 2) = 0x301 ∧
    (0x301 : Nat) ≠ 0x300 + 2 + 1 := by
  refine ⟨rfl, rfl, by decide⟩

/-! ### C3: 00EE pops the stack into PC -/

/-- C3 counterexample: with call stack [0x300], executing `00EE` sets
PC to 0x302 (popped value plus 2), not exactly the popped value 0x300
as the claim states. -/
theorem c3_counterexample :
    pcOfE (op_00ee { baseCpu with stack := [0x300] }) = 0x302 ∧
    pcOfE (op_00ee { baseCpu with stack := [0x300] }) ≠ 0x300 := by
  refine ⟨rfl, by decide⟩

/-- C3 (amended): with a non-empty call stack, `00EE` pops the top value
and sets PC to that value plus 2 — the popped value is the call
instruction's own address, which `2NNN` pushes, so execution resumes at
the instruction after the call; with an empty call stack, `00EE` is a
fatal StackUnderflow error. -/
theorem c3_amended (c : Cpu) (value nnn : Nat) (rest : List Nat) :
    (c.stack = value :: rest →
      op_00ee c = .ok { c with pc := (value + 2) % 65536, stack := rest }) ∧
    (c.stack = [] → op_00ee c = .error .stackUnderflow) ∧
    (op_2nnn c nnn).stack = c.pc :: c.stack ∧ (op_2nnn c nnn).pc = nnn := by
  refine ⟨fun h => ?_, fun h => ?_, rfl, rfl⟩
  · unfold op_00ee
    rw [h]
    rfl
  · unfold op_00ee
    rw [h]

/-- C3 witness: pop of a one-element stack holding 0x300 gives PC 0x302;
pop of the empty stack is the StackUnderflow error; a call `2NNN` pushes
the current PC. -/
theorem c3_amended_witness :
    op_00ee { baseCpu with stack := [0x300] } =
      .ok { { baseCpu with stack := [0x300] } with pc := (0x300 + 2) % 65536, stack := [] } ∧
    op_00ee baseCpu = .error .stackUnderflow ∧
    (op_2nnn baseCpu 0x400).stack = baseCpu.pc :: baseCpu.stack ∧
    (op_2nnn baseCpu 0x400).pc = 0x400 := by
  refine ⟨(c3_amended { baseCpu with stack := [0x300] } 0x300 0x400 []).1 rfl,
    (c3_amended baseCpu 0x300 0x400 []).2.1 rfl,
    (c3_amended baseCpu 0x300 0x400 []).2.2.1,
    (c3_amended baseCpu 0x300 0x400 []).2.2.2⟩

/-! ### C4: index masking -/

/-- C4 counterexample: indices are not masked before use.  With V0 = 16,
executing `E09E` aborts with the Rust bounds-check panic (modelled as
an error) on `keys[16]` instead of continuing with a masked in-range
index as the claim states. -/
theorem c4_counterexample :
    op_ex9e { baseCpu with v := fun j => if j = 0 then 16 else 0 } 0 =
      .error .indexOutOfBounds := by
  rfl

/-- C4 (amended): no register, memory or keypad index is masked before
use; instead an out-of-range access aborts the instruction with a fatal
bounds-check failure: `EX9E`/`EXA1` with VX above 0xF fail on the key
access, and any memory access at an address of 0x1000 or above (as
reachable after `FX1E` grows I past 0xFFF) fails, so no out-of-bounds
read or write ever happens, but execution does not continue either. -/
theorem c4_amended (c : Cpu) (x a value : Nat) (hv : 16 ≤ c.v x) (ha : 4096 ≤ a) :
    op_ex9e c x = .error .indexOutOfBounds ∧
    op_exa1 c x = .error .indexOutOfBounds ∧
    c.read a = .error .indexOutOfBounds ∧
    c.write a value = .error .indexOutOfBounds := by
  have hk : c.keyGet (c.v x) = .error .indexOutOfBounds := by
    unfold Cpu.keyGet
    rw [if_neg (by omega)]
  refine ⟨?_, ?_, ?_, ?_⟩
  · unfold op_ex9e
    rw [hk]
    rfl
  · unfold op_exa1
    rw [hk]
    rfl
  · unfold Cpu.read
    rw [if_neg (by omega)]
  · unfold Cpu.write
    rw [if_neg (by omega)]

/-- C4 witness: V0 = 16 makes `E09E` and `E0A1` abort, and address 4096
makes read and write abort. -/
theorem c4_amended_witness :
    op_ex9e { baseCpu with v := fun j => if j = 0 then 16 else 0 } 0 = .error .indexOutOfBounds ∧
    op_exa1 { baseCpu with v := fun j => if j = 0 then 16 else 0 } 0 = .error .indexOutOfBounds ∧
    Cpu.read { baseCpu with v := fun j => if j = 0 then 16 else 0 } 4096 = .error .indexOutOfBounds ∧
    Cpu.write { baseCpu with v := fun j => if j = 0 then 16 else 0 } 4096 7 = .error .indexOutOfBounds :=
  c4_amended { baseCpu with v := fun j => if j = 0 then 16 else 0 } 0 4096 7 (by decide) (by decide)

/-! ### The FX0A key scan -/

/-- A scan over a range of keys that are all up leaves the accumulator
unchanged. -/
theorem scanKeys_quiet (keys : Nat → Bool) :
    ∀ count idx acc, (∀ k, idx ≤ k → k < idx + count → keys k = false) →
      scanKeys keys acc idx count = acc := by
  intro count
  induction count with
  | zero => intro idx acc _; rfl
  | succ n ih =>
    intro idx acc h
    unfold scanKeys
    rw [h idx (Nat.le_refl idx) (by omega)]
    exact ih (idx + 1) acc (fun k hk1 hk2 => h k (by omega) (by omega))

/-- The scan records the highest pressed key in its range: later finds
overwrite earlier ones. -/
theorem scanKeys_highest (keys : Nat → Bool) :
    ∀ count idx acc m, idx ≤ m → m < idx + count → keys m = true →
      (∀ j, m < j → j < idx + count → keys j = false) →
      scanKeys keys acc idx count = some m := by
  intro count
  induction count with
  | zero => intro idx acc m h1 h2 _ _; omega
  | succ n ih =>
    intro idx acc m h1 h2 hkm hmax
    unfold scanKeys
    by_cases he : idx = m
    · subst he
      rw [hkm]
      exact scanKeys_quiet keys n (idx + 1) (some idx)
        (fun k hk1 hk2 => hmax k (by omega) (by omega))
    · exact ih (idx + 1) (if keys idx then some idx else acc) m (by omega) (by omega) hkm
        (fun j hj1 hj2 => hmax j (by omega) (by omega))

/-- FX0A in the idle state with every key up: the state is returned
unchanged (in particular PC does not advance). -/
theorem fx0a_idle_quiet (c : Cpu) (x : Nat) (hl : c.pressed_key_index = none)
    (hk : ∀ k, k < 16 → c.keys k = false) : op_fx0a c x = .ok c := by
  obtain ⟨mem, opc, vv, ii, pcc, scr, dt, st, stk, ks, df, rg, ri, pki⟩ := c
  simp only at hl
  subst hl
  unfold op_fx0a
  simp only
  rw [scanKeys_quiet ks 16 0 none (fun k _ hk16 => hk k (by omega))]

/-- FX0A in the idle state latches the highest pressed key without
advancing PC. -/
theorem fx0a_idle_latch (c : Cpu) (x m : Nat) (hl : c.pressed_key_index = none)
    (hm : m < 16) (hkm : c.keys m = true)
    (hmax : ∀ j, m < j → j < 16 → c.keys j = false) :
    op_fx0a c x = .ok { c with pressed_key_index := some m } := by
  obtain ⟨mem, opc, vv, ii, pcc, scr, dt, st, stk, ks, df, rg, ri, pki⟩ := c
  simp only at hl
  subst hl
  unfold op_fx0a
  simp only
  rw [scanKeys_highest ks 16 0 none m (by omega) (by omega) hkm
    (fun j hj1 hj2 => hmax j hj1 (by omega))]

/-- FX0A with a latched key that is still down does nothing. -/
theorem fx0a_captured_wait (c : Cpu) (x k : Nat) (hl : c.pressed_key_index = some k)
    (hk16 : k < 16) (hdown : c.keys k = true) : op_fx0a c x = .ok c := by
  obtain ⟨mem, opc, vv, ii, pcc, scr, dt, st, stk, ks, df, rg, ri, pki⟩ := c
  simp only at hl hdown
  subst hl
  unfold op_fx0a
  simp only
  unfold Cpu.keyGet
  rw [if_pos hk16]
  simp [hdown, Except.bind]

/-- FX0A with a latched key that has been released: the latch is
cleared, the key index is committed to VX, and PC advances by 2. -/
theorem fx0a_captured_commit (c : Cpu) (x k : Nat) (hl : c.pressed_key_index = some k)
    (hk16 : k < 16) (hup : c.keys k = false) :
    op_fx0a c x = .ok (inc_pc (setV { c with pressed_key_index := none } x k)) := by
  obtain ⟨mem, opc, vv, ii, pcc, scr, dt, st, stk, ks, df, rg, ri, pki⟩ := c
  simp only at hl hup
  subst hl
  unfold op_fx0a
  simp only
  unfold Cpu.keyGet
  rw [if_pos hk16]
  simp [hup, Except.bind]

/-- Dispatch of a fetched `FX0A` opcode: one step on a state whose
current instruction bytes are `0xF0 + x`, `0x0A` runs the FX0A handler
on the state with the draw flag cleared and the opcode recorded. -/
theorem run_dispatch_fx0a (c : Cpu) (x : Nat) (hx : x < 16) (hpc : c.pc + 1 < 4096)
    (hb0 : c.memory c.pc = 0xF0 + x) (hb1 : c.memory (c.pc + 1) = 0x0A) :
    run_instruction c =
      op_fx0a { c with draw_flag := false, opcode := ((0xF0 + x) <<< 8) ||| 0x0A } x := by
  have hmod : (c.pc + 1) % 65536 = c.pc + 1 := Nat.mod_eq_of_lt (by omega)
  unfold run_instruction
  unfold Cpu.read
  rw [hmod, if_pos (show c.pc < 4096 by omega), if_pos hpc, hb0, hb1]
  interval_cases x <;> rfl

/-! ### C5: the FX0A blocking scenario -/

/-- C5: with the current instruction FX0A, (1) in the idle state with
all 16 keys up a step leaves the whole state — in particular PC and the
latch — unchanged (besides the per-step scratch fields), so repeated
steps keep PC pinned; (2) in the idle state with exactly key 7 down the
step latches key 7 without advancing PC; (3) with key 7 latched and
still down the step changes nothing; (4) once key 7 is released, the
step that observes the release writes 7 into VX, advances PC by 2, and
clears the latch — the only PC advance in the whole scenario. -/
theorem c5_fx0a_scenario (c : Cpu) (x : Nat) (hx : x < 16) (hpc : c.pc + 1 < 4096)
    (hb0 : c.memory c.pc = 0xF0 + x) (hb1 : c.memory (c.pc + 1) = 0x0A) :
    (c.pressed_key_index = none → (∀ k, k < 16 → c.keys k = false) →
      run_instruction c = .ok { c with draw_flag := false, opcode := ((0xF0 + x) <<< 8) ||| 0x0A }) ∧
    (c.pressed_key_index = none → (∀ k, k < 16 → (c.keys k = true ↔ k = 7)) →
      run_instruction c = .ok { c with
        draw_flag := false
        opcode := ((0xF0 + x) <<< 8) ||| 0x0A
        pressed_key_index := some 7 }) ∧
    (c.pressed_key_index = some 7 → c.keys 7 = true →
      run_instruction c = .ok { c with draw_flag := false, opcode := ((0xF0 + x) <<< 8) ||| 0x0A }) ∧
    (c.pressed_key_index = some 7 → c.keys 7 = false →
      run_instruction c = .ok (inc_pc (setV { c with
        draw_flag := false
        opcode := ((0xF0 + x) <<< 8) ||| 0x0A
        pressed_key_index := none } x 7))) := by
  rw [run_dispatch_fx0a c x hx hpc hb0 hb1]
  refine ⟨fun hl hk => ?_, fun hl hk => ?_, fun hl hk => ?_, fun hl hk => ?_⟩
  · exact fx0a_idle_quiet
      { c with draw_flag := false, opcode := ((0xF0 + x) <<< 8) ||| 0x0A } x hl hk
  · exact fx0a_idle_latch
      { c with draw_flag := false, opcode := ((0xF0 + x) <<< 8) ||| 0x0A } x 7 hl (by omega)
      ((hk 7 (by omega)).mpr rfl)
      (fun j hj1 hj2 => by
        have hj := hk j hj2
        cases hkj : c.keys j with
        | false => rfl
        | true => exact absurd (hj.mp hkj) (by omega))
  · exact fx0a_captured_wait
      { c with draw_flag := false, opcode := ((0xF0 + x) <<< 8) ||| 0x0A } x 7 hl (by omega) hk
  · exact fx0a_captured_commit
      { c with draw_flag := false, opcode := ((0xF0 + x) <<< 8) ||| 0x0A } x 7 hl (by omega) hk

/-- The scenario memory for C5/C9: opcode `F00A` (x = 0) at the program
start. -/
def fx0aMem : Nat → Nat :=
  fun a => if a = 0x200 then 0xF0 else if a = 0x201 then 0x0A else 0

/-- C5 witness: the four phases of the scenario at x = 0, run on
concrete states.  Phase 1: all keys up, state unchanged; phase 2: key 7
down gets latched; phase 3: key 7 latched and down, nothing happens;
phase 4: key 7 latched and released, V0 = 7 and PC advances by 2. -/
theorem c5_fx0a_scenario_witness :
    (run_instruction { baseCpu with memory := fx0aMem } =
      .ok { { baseCpu with memory := fx0aMem } with draw_flag := false, opcode := ((0xF0 + 0) <<< 8) ||| 0x0A }) ∧
    (run_instruction { baseCpu with memory := fx0aMem, keys := fun k => k == 7 } =
      .ok { { baseCpu with memory := fx0aMem, keys := fun k => k == 7 } with
        draw_flag := false
        opcode := ((0xF0 + 0) <<< 8) ||| 0x0A
        pressed_key_index := some 7 }) ∧
    (run_instruction { baseCpu with memory := fx0aMem, keys := fun k => k == 7, pressed_key_index := some 7 } =
      .ok { { baseCpu with memory := fx0aMem, keys := fun k => k == 7, pressed_key_index := some 7 } with
        draw_flag := false, opcode := ((0xF0 + 0) <<< 8) ||| 0x0A }) ∧
    (run_instruction { baseCpu with memory := fx0aMem, pressed_key_index := some 7 } =
      .ok (inc_pc (setV { { baseCpu with memory := fx0aMem, pressed_key_index := some 7 } with
        draw_flag := false
        opcode := ((0xF0 + 0) <<< 8) ||| 0x0A
        pressed_key_index := none } 0 7))) := by
  refine ⟨?_, ?_, ?_, ?_⟩
  · exact (c5_fx0a_scenario { baseCpu with memory := fx0aMem } 0
      (by decide) (by decide) (by decide) (by decide)).1 rfl (by decide)
  · exact (c5_fx0a_scenario { baseCpu with memory := fx0aMem, keys := fun k => k == 7 } 0
      (by decide) (by decide) (by decide) (by decide)).2.1 rfl (by decide)
  · exact (c5_fx0a_scenario
      { baseCpu with memory := fx0aMem, keys := fun k => k == 7, pressed_key_index := some 7 } 0
      (by decide) (by decide) (by decide) (by decide)).2.2.1 rfl (by decide)
  · exact (c5_fx0a_scenario { baseCpu with memory := fx0aMem, pressed_key_index := some 7 } 0
      (by decide) (by decide) (by decide) (by decide)).2.2.2 rfl (by decide)

/-! ### C9: FX0A latches the highest pressed key -/

/-- C9: when FX0A executes in the idle state and at least two keys are
down, the key latched is the one with the highest index among the
pressed keys — the scan over keys 0..15 overwrites earlier finds — and
PC does not advance on that step (visible in the returned state, whose
pc field is untouched). -/
theorem c9_latch_highest (c : Cpu) (x m m2 : Nat) (hx : x < 16) (hpc : c.pc + 1 < 4096)
    (hb0 : c.memory c.pc = 0xF0 + x) (hb1 : c.memory (c.pc + 1) = 0x0A)
    (hl : c.pressed_key_index = none)
    (hm : m < 16) (hkm : c.keys m = true)
    (hmax : ∀ j, m < j → j < 16 → c.keys j = false)
    (hm2 : m2 < m) (hkm2 : c.keys m2 = true) :
    run_instruction c = .ok { c with
      draw_flag := false
      opcode := ((0xF0 + x) <<< 8) ||| 0x0A
      pressed_key_index := some m } := by
  rw [run_dispatch_fx0a c x hx hpc hb0 hb1]
  exact fx0a_idle_latch
    { c with draw_flag := false, opcode := ((0xF0 + x) <<< 8) ||| 0x0A } x m hl hm hkm hmax

/-- C9 witness: with keys 3 and 7 both down (and the rest up), the scan
latches key 7, the highest pressed index, and PC stays at 0x200. -/
theorem c9_latch_highest_witness :
    run_instruction { baseCpu with memory := fx0aMem, keys := fun k => k == 3 || k == 7 } =
      .ok { { baseCpu with memory := fx0aMem, keys := fun k => k == 3 || k == 7 } with
        draw_flag := false
        opcode := ((0xF0 + 0) <<< 8) ||| 0x0A
        pressed_key_index := some 7 } := by
  exact c9_latch_highest { baseCpu with memory := fx0aMem, keys := fun k => k == 3 || k == 7 }
    0 7 3 (by decide) (by decide) (by decide) (by decide) rfl (by decide) (by decide)
    (fun j hj1 hj2 => by interval_cases j <;> rfl) (by decide) (by decide)

/-! ### C1: unrecognized opcodes -/

/-- Fetching succeeds and feeds the two memory bytes at PC and PC + 1
into the decode-dispatch whenever PC + 1 is inside memory. -/
theorem run_fetch (c : Cpu) (hpc : c.pc + 1 < 4096) :
    run_instruction c = decodeExec c (c.memory c.pc) (c.memory (c.pc + 1)) := by
  have hmod : (c.pc + 1) % 65536 = c.pc + 1 := Nat.mod_eq_of_lt (by omega)
  unfold run_instruction Cpu.read
  rw [hmod, if_pos (show c.pc < 4096 by omega), if_pos hpc]
  rfl

/-- Memory holding the two given instruction bytes at the program
start. -/
def twoByteMem (b0 b1 : Nat) : Nat → Nat :=
  fun a => if a = 0x200 then b0 else if a = 0x201 then b1 else 0

/-- C1 counterexample: four families of fetched opcodes that match no
entry of the opcode table in spec section 4.2, yet the step surfaces no
failure: `0x0001` is only logged, with PC left at 0x200; `0x5121`
executes as `5XY0` (V1 = V2 here, so it skips: PC = 0x204); `0x9AB3`
executes as `9XY0` (VA = VB, no skip: PC = 0x202); `0x01E0` executes as
`00E0` (PC = 0x202); and `0x01EE` executes as `00EE`, returning to
0x300 + 2. -/
theorem c1_counterexample :
    (isOkE (run_instruction { baseCpu with memory := twoByteMem 0x00 0x01 }) = true ∧
      pcOfE (run_instruction { baseCpu with memory := twoByteMem 0x00 0x01 }) = 0x200) ∧
    (isOkE (run_instruction { baseCpu with memory := twoByteMem 0x51 0x21 }) = true ∧
      pcOfE (run_instruction { baseCpu with memory := twoByteMem 0x51 0x21 }) = 0x204) ∧
    (isOkE (run_instruction { baseCpu with memory := twoByteMem 0x9A 0xB3 }) = true ∧
      pcOfE (run_instruction { baseCpu with memory := twoByteMem 0x9A 0xB3 }) = 0x202) ∧
    (isOkE (run_instruction { baseCpu with memory := twoByteMem 0x01 0xE0 }) = true ∧
      pcOfE (run_instruction { baseCpu with memory := twoByteMem 0x01 0xE0 }) = 0x202) ∧
    (isOkE (run_instruction { baseCpu with memory := twoByteMem 0x01 0xEE, stack := [0x300] }) = true ∧
      pcOfE (run_instruction { baseCpu with memory := twoByteMem 0x01 0xEE, stack := [0x300] }) = 0x302) := by
  exact ⟨⟨rfl, rfl⟩, ⟨rfl, rfl⟩, ⟨rfl, rfl⟩, ⟨rfl, rfl⟩, ⟨rfl, rfl⟩⟩

/-- C1 (amended): only an opcode whose primary nibble is 0x8, 0xE or 0xF
and whose secondary dispatch matches no table entry surfaces an explicit
UnrecognizedOpcode failure outcome from the step.  Every other opcode
matching no table entry executes without a failure: a word with primary
nibble 0x0 whose low byte is neither 0xE0 nor 0xEE (and which is not the
all-zero word) is only logged and ignored, the step succeeding with the
state — in particular PC — unchanged apart from the per-step scratch
fields; a word with primary nibble 0x0 and low byte 0xE0 or 0xEE but
nonzero middle nibbles executes as `00E0` or `00EE`; and a `5XY_` or
`9XY_` word with a nonzero last nibble executes as `5XY0` or `9XY0`. -/
theorem c1_amended (c : Cpu) (b0 b1 : Nat) (hpc : c.pc + 1 < 4096)
    (hb0 : c.memory c.pc = b0) (hb1 : c.memory (c.pc + 1) = b1) :
    (((b0 <<< 8) ||| b1) &&& 0xF000 = 0x0000 → ¬(b1 = 0 ∧ b0 = 0) →
      ((b0 <<< 8) ||| b1) &&& 0x00FF ≠ 0x00E0 → ((b0 <<< 8) ||| b1) &&& 0x00FF ≠ 0x00EE →
      run_instruction c = .ok { c with draw_flag := false, opcode := (b0 <<< 8) ||| b1 }) ∧
    (((b0 <<< 8) ||| b1) &&& 0xF000 = 0x8000 →
      (∀ k, k ∈ [0x0, 0x1, 0x2, 0x3, 0x4, 0x5, 0x6, 0x7, 0xE] →
        ((b0 <<< 8) ||| b1) &&& 0x000F ≠ k) →
      run_instruction c = .error (.unrecognizedOpcode ((b0 <<< 8) ||| b1))) ∧
    (((b0 <<< 8) ||| b1) &&& 0xF000 = 0xE000 →
      (∀ k, k ∈ [0x9E, 0xA1] → ((b0 <<< 8) ||| b1) &&& 0x00FF ≠ k) →
      run_instruction c = .error (.unrecognizedOpcode ((b0 <<< 8) ||| b1))) ∧
    (((b0 <<< 8) ||| b1) &&& 0xF000 = 0xF000 →
      (∀ k, k ∈ [0x07, 0x0A, 0x15, 0x18, 0x1E, 0x29, 0x33, 0x55, 0x65] →
        ((b0 <<< 8) ||| b1) &&& 0x00FF ≠ k) →
      run_instruction c = .error (.unrecognizedOpcode ((b0 <<< 8) ||| b1))) ∧
    (((b0 <<< 8) ||| b1) &&& 0xF000 = 0x0000 →
      ((b0 <<< 8) ||| b1) &&& 0x00FF = 0x00E0 → (b0 <<< 8) ||| b1 ≠ 0x00E0 →
      run_instruction c = .ok (op_00e0 { c with draw_flag := false, opcode := (b0 <<< 8) ||| b1 })) ∧
    (((b0 <<< 8) ||| b1) &&& 0xF000 = 0x0000 →
      ((b0 <<< 8) ||| b1) &&& 0x00FF = 0x00EE → (b0 <<< 8) ||| b1 ≠ 0x00EE →
      run_instruction c = op_00ee { c with draw_flag := false, opcode := (b0 <<< 8) ||| b1 }) ∧
    (((b0 <<< 8) ||| b1) &&& 0xF000 = 0x5000 → ((b0 <<< 8) ||| b1) &&& 0x000F ≠ 0x0000 →
      run_instruction c = .ok (op_5xy0 { c with draw_flag := false, opcode := (b0 <<< 8) ||| b1 }
        ((((b0 <<< 8) ||| b1) &&& 0x0F00) >>> 8) ((((b0 <<< 8) ||| b1) &&& 0x00F0) >>> 4))) ∧
    (((b0 <<< 8) ||| b1) &&& 0xF000 = 0x9000 → ((b0 <<< 8) ||| b1) &&& 0x000F ≠ 0x0000 →
      run_instruction c = .ok (op_9xy0 { c with draw_flag := false, opcode := (b0 <<< 8) ||| b1 }
        ((((b0 <<< 8) ||| b1) &&& 0x0F00) >>> 8) ((((b0 <<< 8) ||| b1) &&& 0x00F0) >>> 4))) := by
  rw [run_fetch c hpc, hb0, hb1]
  refine ⟨fun h0 hz hE0 hEE => ?_, fun h8 hks => ?_, fun hE hks => ?_, fun hF hks => ?_,
    fun h0 hE0 hne => ?_, fun h0 hEE hne => ?_, fun h5 hk => ?_, fun h9 hk => ?_⟩
  · simp only [decodeExec]
    rw [if_neg hz, if_pos h0, if_neg hE0, if_neg hEE]
  · have hz : ¬(b1 = 0 ∧ b0 = 0) := by
      rintro ⟨h1, h0⟩
      rw [h0, h1] at h8
      exact absurd h8 (by decide)
    simp only [decodeExec]
    rw [if_neg hz, h8]
    norm_num
    rw [if_neg (hks 0x0 (by decide)), if_neg (hks 0x1 (by decide)),
      if_neg (hks 0x2 (by decide)), if_neg (hks 0x3 (by decide)),
      if_neg (hks 0x4 (by decide)), if_neg (hks 0x5 (by decide)),
      if_neg (hks 0x6 (by decide)), if_neg (hks 0x7 (by decide)),
      if_neg (hks 0xE (by decide))]
  · have hz : ¬(b1 = 0 ∧ b0 = 0) := by
      rintro ⟨h1, h0⟩
      rw [h0, h1] at hE
      exact absurd hE (by decide)
    simp only [decodeExec]
    rw [if_neg hz, hE]
    norm_num
    rw [if_neg (hks 0x9E (by decide)), if_neg (hks 0xA1 (by decide))]
  · have hz : ¬(b1 = 0 ∧ b0 = 0) := by
      rintro ⟨h1, h0⟩
      rw [h0, h1] at hF
      exact absurd hF (by decide)
    simp only [decodeExec]
    rw [if_neg hz, hF]
    norm_num
    rw [if_neg (hks 0x07 (by decide)), if_neg (hks 0x0A (by decide)),
      if_neg (hks 0x15 (by decide)), if_neg (hks 0x18 (by decide)),
      if_neg (hks 0x1E (by decide)), if_neg (hks 0x29 (by decide)),
      if_neg (hks 0x33 (by decide)), if_neg (hks 0x55 (by decide)),
      if_neg (hks 0x65 (by decide))]
  · have hz : ¬(b1 = 0 ∧ b0 = 0) := by
      rintro ⟨h1, h0x⟩
      rw [h0x, h1] at hE0
      exact absurd hE0 (by decide)
    simp only [decodeExec]
    rw [if_neg hz, if_pos h0, if_pos hE0]
  · have hz : ¬(b1 = 0 ∧ b0 = 0) := by
      rintro ⟨h1, h0x⟩
      rw [h0x, h1] at hEE
      exact absurd hEE (by decide)
    simp only [decodeExec]
    rw [if_neg hz, if_pos h0, hEE]
    norm_num
  · have hz : ¬(b1 = 0 ∧ b0 = 0) := by
      rintro ⟨h1, h0⟩
      rw [h0, h1] at h5
      exact absurd h5 (by decide)
    simp only [decodeExec]
    rw [if_neg hz, h5]
    norm_num
  · have hz : ¬(b1 = 0 ∧ b0 = 0) := by
      rintro ⟨h1, h0⟩
      rw [h0, h1] at h9
      exact absurd h9 (by decide)
    simp only [decodeExec]
    rw [if_neg hz, h9]
    norm_num

/-- C1 witness: opcode `0x0001` is ignored with PC unchanged; the
unmatched opcodes `0x8129`, `0xE1FF` and `0xF1FF` surface the
UnrecognizedOpcode failure; and the non-matching patterns `0x01E0`,
`0x01EE`, `0x5121` and `0x9AB3` execute as `00E0`, `00EE`, `5XY0` and
`9XY0` respectively. -/
theorem c1_amended_witness :
    (run_instruction { baseCpu with memory := twoByteMem 0x00 0x01 } =
      .ok { { baseCpu with memory := twoByteMem 0x00 0x01 } with
        draw_flag := false, opcode := (0x00 <<< 8) ||| 0x01 }) ∧
    (run_instruction { baseCpu with memory := twoByteMem 0x81 0x29 } =
      .error (.unrecognizedOpcode ((0x81 <<< 8) ||| 0x29))) ∧
    (run_instruction { baseCpu with memory := twoByteMem 0xE1 0xFF } =
      .error (.unrecognizedOpcode ((0xE1 <<< 8) ||| 0xFF))) ∧
    (run_instruction { baseCpu with memory := twoByteMem 0xF1 0xFF } =
      .error (.unrecognizedOpcode ((0xF1 <<< 8) ||| 0xFF))) ∧
    (run_instruction { baseCpu with memory := twoByteMem 0x01 0xE0 } =
      .ok (op_00e0 { { baseCpu with memory := twoByteMem 0x01 0xE0 } with
        draw_flag := false, opcode := (0x01 <<< 8) ||| 0xE0 })) ∧
    (run_instruction { baseCpu with memory := twoByteMem 0x01 0xEE, stack := [0x300] } =
      op_00ee { { baseCpu with memory := twoByteMem 0x01 0xEE, stack := [0x300] } with
        draw_flag := false, opcode := (0x01 <<< 8) ||| 0xEE }) ∧
    (run_instruction { baseCpu with memory := twoByteMem 0x51 0x21 } =
      .ok (op_5xy0 { { baseCpu with memory := twoByteMem 0x51 0x21 } with
        draw_flag := false, opcode := (0x51 <<< 8) ||| 0x21 }
        ((((0x51 <<< 8) ||| 0x21) &&& 0x0F00) >>> 8)
        ((((0x51 <<< 8) ||| 0x21) &&& 0x00F0) >>> 4))) ∧
    (run_instruction { baseCpu with memory := twoByteMem 0x9A 0xB3 } =
      .ok (op_9xy0 { { baseCpu with memory := twoByteMem 0x9A 0xB3 } with
        draw_flag := false, opcode := (0x9A <<< 8) ||| 0xB3 }
        ((((0x9A <<< 8) ||| 0xB3) &&& 0x0F00) >>> 8)
        ((((0x9A <<< 8) ||| 0xB3) &&& 0x00F0) >>> 4))) := by
  refine ⟨?_, ?_, ?_, ?_, ?_, ?_, ?_, ?_⟩
  · exact (c1_amended { baseCpu with memory := twoByteMem 0x00 0x01 }
      0x00 0x01 (by decide) rfl rfl).1 (by decide) (by decide) (by decide) (by decide)
  · exact (c1_amended { baseCpu with memory := twoByteMem 0x81 0x29 }
      0x81 0x29 (by decide) rfl rfl).2.1 (by decide) (by decide)
  · exact (c1_amended { baseCpu with memory := twoByteMem 0xE1 0xFF }
      0xE1 0xFF (by decide) rfl rfl).2.2.1 (by decide) (by decide)
  · exact (c1_amended { baseCpu with memory := twoByteMem 0xF1 0xFF }
      0xF1 0xFF (by decide) rfl rfl).2.2.2.1 (by decide) (by decide)
  · exact (c1_amended { baseCpu with memory := twoByteMem 0x01 0xE0 }
      0x01 0xE0 (by decide) rfl rfl).2.2.2.2.1 (by decide) (by decide) (by decide)
  · exact (c1_amended { baseCpu with memory := twoByteMem 0x01 0xEE, stack := [0x300] }
      0x01 0xEE (by decide) rfl rfl).2.2.2.2.2.1 (by decide) (by decide) (by decide)
  · exact (c1_amended { baseCpu with memory := twoByteMem 0x51 0x21 }
      0x51 0x21 (by decide) rfl rfl).2.2.2.2.2.2.1 (by decide) (by decide)
  · exact (c1_amended { baseCpu with memory := twoByteMem 0x9A 0xB3 }
      0x9A 0xB3 (by decide) rfl rfl).2.2.2.2.2.2.2 (by decide) (by decide)

/-! ### Bit-level helpers for the DXYN draw -/

/-- The pixel value drawn at the `k`-th column of a sprite byte: the
column loop shifts the byte left once per column (with `u8` truncation)
and extracts the top bit. -/
def colBit (pixel k : Nat) : Nat :=
  (((pixel <<< k) % 256) &&& 0x80) >>> 7

theorem and128_mod256 (a : Nat) : a % 256 &&& 128 = a &&& 128 := by
  apply Nat.eq_of_testBit_eq
  intro i
  have h256 : (256 : Nat) = 2 ^ 8 := rfl
  have h128 : (128 : Nat) = 2 ^ 7 := rfl
  rw [Nat.testBit_and, Nat.testBit_and, h256, h128, Nat.testBit_mod_two_pow,
    Nat.testBit_two_pow]
  by_cases hi : 7 = i
  · subst hi
    simp
  · simp [hi]

theorem colBit_zero (pixel : Nat) : (pixel &&& 0x80) >>> 7 = colBit pixel 0 := by
  unfold colBit
  rw [Nat.shiftLeft_zero, and128_mod256]

theorem colBit_step (pixel k : Nat) :
    colBit pixel (k + 1) = colBit ((pixel <<< 1) % 256) k := by
  unfold colBit
  have h : (pixel <<< (k + 1)) % 256 = (((pixel <<< 1) % 256) <<< k) % 256 := by
    rw [Nat.shiftLeft_eq, Nat.shiftLeft_eq, Nat.shiftLeft_eq, Nat.mod_mul_mod]
    ring_nf
  rw [h]

theorem colBit_le_one (pixel k : Nat) : colBit pixel k ≤ 1 := by
  unfold colBit
  have h1 : (pixel <<< k) % 256 &&& 128 ≤ 128 := Nat.and_le_right
  rw [Nat.shiftRight_eq_div_pow]
  omega

theorem xor_255_ne (a : Nat) : a ^^^ 255 ≠ a := by
  intro h
  nth_rewrite 2 [← Nat.xor_zero a] at h
  rw [Nat.xor_comm a 255, Nat.xor_comm a 0] at h
  have h2 : (255 : Nat) = 0 := Nat.xor_left_injective h
  exact absurd h2 (by decide)

theorem get_screen_index_of_lt (x y : Nat) (hx : x < 64) :
    get_screen_index x y = (y % 32) * 64 + x := by
  unfold get_screen_index SCREEN_WIDTH SCREEN_HEIGHT
  rw [Nat.mod_eq_of_lt hx]

/-- Equality of two machine states on every field except the screen and
the register file: the only fields the DXYN inner loops may touch. -/
def eqExceptScreenV (a b : Cpu) : Prop :=
  a.memory = b.memory ∧ a.opcode = b.opcode ∧ a.i = b.i ∧ a.pc = b.pc ∧
  a.delay_timer = b.delay_timer ∧ a.sound_timer = b.sound_timer ∧
  a.stack = b.stack ∧ a.keys = b.keys ∧ a.draw_flag = b.draw_flag ∧
  a.rng = b.rng ∧ a.rngIdx = b.rngIdx ∧ a.pressed_key_index = b.pressed_key_index

theorem eqExceptScreenV_refl (a : Cpu) : eqExceptScreenV a a :=
  ⟨rfl, rfl, rfl, rfl, rfl, rfl, rfl, rfl, rfl, rfl, rfl, rfl⟩

theorem eqExceptScreenV_trans {a b c : Cpu} (h1 : eqExceptScreenV a b)
    (h2 : eqExceptScreenV b c) : eqExceptScreenV a c := by
  obtain ⟨e1, e2, e3, e4, e5, e6, e7, e8, e9, e10, e11, e12⟩ := h1
  obtain ⟨f1, f2, f3, f4, f5, f6, f7, f8, f9, f10, f11, f12⟩ := h2
  exact ⟨e1.trans f1, e2.trans f2, e3.trans f3, e4.trans f4, e5.trans f5,
    e6.trans f6, e7.trans f7, e8.trans f8, e9.trans f9, e10.trans f10,
    e11.trans f11, e12.trans f12⟩

theorem setV_fields (c : Cpu) (x n : Nat) : eqExceptScreenV (setV c x n) c :=
  ⟨rfl, rfl, rfl, rfl, rfl, rfl, rfl, rfl, rfl, rfl, rfl, rfl⟩

theorem setV_screen (c : Cpu) (x n : Nat) : (setV c x n).screen = c.screen := rfl

theorem setV_v_ne (c : Cpu) (x n r : Nat) (h : r ≠ x) : (setV c x n).v r = c.v r := by
  unfold setV
  simp [h]

theorem setV_v_self (c : Cpu) (x n : Nat) : (setV c x n).v x = n := by
  unfold setV
  simp

theorem ssp_fields (c : Cpu) (x y value : Nat) :
    eqExceptScreenV (set_screen_pixel c x y value).1 c := by
  unfold set_screen_pixel
  by_cases hv : value > 0 <;>
    simp [hv, eqExceptScreenV]

theorem ssp_v (c : Cpu) (x y value : Nat) :
    (set_screen_pixel c x y value).1.v = c.v := by
  unfold set_screen_pixel
  by_cases hv : value > 0 <;> simp [hv]

theorem ssp_screen (c : Cpu) (x y value p : Nat) :
    (set_screen_pixel c x y value).1.screen p =
      if p = get_screen_index x y ∧ 0 < value then c.screen p ^^^ 255 else c.screen p := by
  unfold set_screen_pixel
  by_cases hv : value > 0
  · by_cases hp : p = get_screen_index x y <;> simp [hv, hp]
  · by_cases hp : p = get_screen_index x y <;> simp [hv, hp, Nat.xor_zero]

theorem ssp_collision (c : Cpu) (x y value : Nat) :
    (set_screen_pixel c x y value).2 = decide (0 < value) := by
  unfold set_screen_pixel
  by_cases hv : value > 0
  · simp [hv, xor_255_ne (c.screen (get_screen_index x y))]
  · simp [hv, Nat.xor_zero]

/-! ### Characterization of the DXYN column loop -/

theorem drawCols_fields (x_pos yy : Nat) :
    ∀ count c pixel col, eqExceptScreenV (drawCols c x_pos yy pixel col count) c := by
  intro count
  induction count with
  | zero => intro c pixel col; exact eqExceptScreenV_refl c
  | succ n ih =>
    intro c pixel col
    simp only [drawCols]
    by_cases hb : SCREEN_WIDTH ≤ x_pos + col
    · rw [if_pos hb]
      exact eqExceptScreenV_refl c
    · rw [if_neg hb]
      refine eqExceptScreenV_trans (ih _ _ _) ?_
      cases hr2 : (set_screen_pixel c (x_pos + col) yy ((pixel &&& 0x80) >>> 7)).2 with
      | false =>
        rw [if_neg Bool.false_ne_true]
        exact ssp_fields _ _ _ _
      | true =>
        rw [if_pos rfl]
        exact eqExceptScreenV_trans (setV_fields _ _ _) (ssp_fields _ _ _ _)

theorem drawCols_v_ne (x_pos yy : Nat) :
    ∀ count c pixel col r, r ≠ 15 →
      (drawCols c x_pos yy pixel col count).v r = c.v r := by
  intro count
  induction count with
  | zero => intro c pixel col r _; rfl
  | succ n ih =>
    intro c pixel col r hr
    simp only [drawCols]
    by_cases hb : SCREEN_WIDTH ≤ x_pos + col
    · rw [if_pos hb]
    · rw [if_neg hb]
      rw [ih _ _ _ r hr]
      cases hr2 : (set_screen_pixel c (x_pos + col) yy ((pixel &&& 0x80) >>> 7)).2 with
      | false =>
        rw [if_neg Bool.false_ne_true]
        rw [ssp_v]
      | true =>
        rw [if_pos rfl]
        rw [setV_v_ne _ _ _ r hr, ssp_v]

theorem drawCols_v15 (x_pos yy : Nat) :
    ∀ count c pixel col,
      ((∃ j, j < count ∧ x_pos + col + j < 64 ∧ colBit pixel j = 1) →
        (drawCols c x_pos yy pixel col count).v 15 = 1) ∧
      ((¬ ∃ j, j < count ∧ x_pos + col + j < 64 ∧ colBit pixel j = 1) →
        (drawCols c x_pos yy pixel col count).v 15 = c.v 15) := by
  intro count
  induction count with
  | zero =>
    intro c pixel col
    exact ⟨fun ⟨j, hj, _, _⟩ => absurd hj (by omega), fun _ => rfl⟩
  | succ n ih =>
    intro c pixel col
    simp only [drawCols]
    by_cases hb : SCREEN_WIDTH ≤ x_pos + col
    · rw [if_pos hb]
      have hb' : 64 ≤ x_pos + col := hb
      exact ⟨fun ⟨j, _, hjb, _⟩ => absurd hjb (by omega), fun _ => rfl⟩
    · rw [if_neg hb]
      have hb' : x_pos + col < 64 := Nat.lt_of_not_le hb
      have hvz := colBit_zero pixel
      have hble := colBit_le_one pixel 0
      have hcol := ssp_collision c (x_pos + col) yy ((pixel &&& 0x80) >>> 7)
      cases hr2 : (set_screen_pixel c (x_pos + col) yy ((pixel &&& 0x80) >>> 7)).2 with
      | false =>
        rw [if_neg Bool.false_ne_true]
        have hbit0 : colBit pixel 0 = 0 := by
          rw [hcol] at hr2
          have h0 := of_decide_eq_false hr2
          rw [hvz] at h0
          omega
        constructor
        · rintro ⟨j, hj, hjb, hbit⟩
          cases j with
          | zero => rw [hbit0] at hbit; exact absurd hbit (by decide)
          | succ j2 =>
            exact (ih _ ((pixel <<< 1) % 256) (col + 1)).1
              ⟨j2, by omega, by omega, by rw [← colBit_step]; exact hbit⟩
        · intro hno
          have hnorest : ¬ ∃ j, j < n ∧ x_pos + (col + 1) + j < 64 ∧
              colBit ((pixel <<< 1) % 256) j = 1 := by
            rintro ⟨j2, h1, h2, h3⟩
            exact hno ⟨j2 + 1, by omega, by omega, by rw [colBit_step]; exact h3⟩
          rw [(ih _ ((pixel <<< 1) % 256) (col + 1)).2 hnorest]
          rw [show ((set_screen_pixel c (x_pos + col) yy ((pixel &&& 0x80) >>> 7)).1).v = c.v
            from ssp_v _ _ _ _]
      | true =>
        rw [if_pos rfl]
        have hbit0 : colBit pixel 0 = 1 := by
          rw [hcol] at hr2
          have h0 := of_decide_eq_true hr2
          rw [hvz] at h0
          omega
        have haux : (drawCols (setV (set_screen_pixel c (x_pos + col) yy
            ((pixel &&& 0x80) >>> 7)).1 0xF 1) x_pos yy ((pixel <<< 1) % 256) (col + 1) n).v 15 = 1 := by
          by_cases hrest : ∃ j, j < n ∧ x_pos + (col + 1) + j < 64 ∧
              colBit ((pixel <<< 1) % 256) j = 1
          · exact (ih _ ((pixel <<< 1) % 256) (col + 1)).1 hrest
          · rw [(ih _ ((pixel <<< 1) % 256) (col + 1)).2 hrest]
            exact setV_v_self _ _ _
        exact ⟨fun _ => haux, fun hno => absurd ⟨0, by omega, by omega, hbit0⟩ hno⟩

theorem drawCols_screen (x_pos yy : Nat) :
    ∀ count c pixel col p,
      ((∃ j, j < count ∧ x_pos + col + j < 64 ∧ colBit pixel j = 1 ∧
          p = (yy % 32) * 64 + (x_pos + col + j)) →
        (drawCols c x_pos yy pixel col count).screen p = c.screen p ^^^ 255) ∧
      ((¬ ∃ j, j < count ∧ x_pos + col + j < 64 ∧ colBit pixel j = 1 ∧
          p = (yy % 32) * 64 + (x_pos + col + j)) →
        (drawCols c x_pos yy pixel col count).screen p = c.screen p) := by
  intro count
  induction count with
  | zero =>
    intro c pixel col p
    exact ⟨fun ⟨j, hj, _, _, _⟩ => absurd hj (by omega), fun _ => rfl⟩
  | succ n ih =>
    intro c pixel col p
    simp only [drawCols]
    by_cases hb : SCREEN_WIDTH ≤ x_pos + col
    · rw [if_pos hb]
      have hb' : 64 ≤ x_pos + col := hb
      exact ⟨fun ⟨j, _, hjb, _, _⟩ => absurd hjb (by omega), fun _ => rfl⟩
    · rw [if_neg hb]
      have hb' : x_pos + col < 64 := Nat.lt_of_not_le hb
      have hgsi := get_screen_index_of_lt (x_pos + col) yy hb'
      have hvz := colBit_zero pixel
      have hble := colBit_le_one pixel 0
      have hcol := ssp_collision c (x_pos + col) yy ((pixel &&& 0x80) >>> 7)
      have hsc := ssp_screen c (x_pos + col) yy ((pixel &&& 0x80) >>> 7) p
      cases hr2 : (set_screen_pixel c (x_pos + col) yy ((pixel &&& 0x80) >>> 7)).2 with
      | false =>
        rw [if_neg Bool.false_ne_true]
        have hbit0 : colBit pixel 0 = 0 := by
          rw [hcol] at hr2
          have h0 := of_decide_eq_false hr2
          rw [hvz] at h0
          omega
        have hscreen1 : (set_screen_pixel c (x_pos + col) yy
            ((pixel &&& 0x80) >>> 7)).1.screen p = c.screen p := by
          rw [hsc, if_neg]
          rintro ⟨hp, hpos⟩
          rw [hvz] at hpos
          omega
        constructor
        · rintro ⟨j, hj, hjb, hbit, hp⟩
          cases j with
          | zero => rw [hbit0] at hbit; exact absurd hbit (by decide)
          | succ j2 =>
            rw [(ih _ ((pixel <<< 1) % 256) (col + 1) p).1
              ⟨j2, by omega, by omega, by rw [← colBit_step]; exact hbit, by omega⟩]
            rw [hscreen1]
        · intro hno
          have hnorest : ¬ ∃ j, j < n ∧ x_pos + (col + 1) + j < 64 ∧
              colBit ((pixel <<< 1) % 256) j = 1 ∧
              p = (yy % 32) * 64 + (x_pos + (col + 1) + j) := by
            rintro ⟨j2, h1, h2, h3, h4⟩
            exact hno ⟨j2 + 1, by omega, by omega, by rw [colBit_step]; exact h3, by omega⟩
          rw [(ih _ ((pixel <<< 1) % 256) (col + 1) p).2 hnorest, hscreen1]
      | true =>
        rw [if_pos rfl]
        have hbit0 : colBit pixel 0 = 1 := by
          rw [hcol] at hr2
          have h0 := of_decide_eq_true hr2
          rw [hvz] at h0
          omega
        have hscreen1 : ∀ q, (setV (set_screen_pixel c (x_pos + col) yy
            ((pixel &&& 0x80) >>> 7)).1 0xF 1).screen q =
            if q = (yy % 32) * 64 + (x_pos + col) then c.screen q ^^^ 255 else c.screen q := by
          intro q
          rw [setV_screen, ssp_screen, hgsi, hvz, hbit0]
          by_cases hq : q = (yy % 32) * 64 + (x_pos + col) <;> simp [hq]
        constructor
        · rintro ⟨j, hj, hjb, hbit, hp⟩
          cases j with
          | zero =>
            have hnorest : ¬ ∃ j2, j2 < n ∧ x_pos + (col + 1) + j2 < 64 ∧
                colBit ((pixel <<< 1) % 256) j2 = 1 ∧
                p = (yy % 32) * 64 + (x_pos + (col + 1) + j2) := by
              rintro ⟨j2, h1, h2, h3, h4⟩
              omega
            rw [(ih _ ((pixel <<< 1) % 256) (col + 1) p).2 hnorest, hscreen1 p,
              if_pos (by omega)]
          | succ j2 =>
            have hpne : p ≠ (yy % 32) * 64 + (x_pos + col) := by omega
            rw [(ih _ ((pixel <<< 1) % 256) (col + 1) p).1
              ⟨j2, by omega, by omega, by rw [← colBit_step]; exact hbit, by omega⟩]
            rw [hscreen1 p, if_neg hpne]
        · intro hno
          have hpne : p ≠ (yy % 32) * 64 + (x_pos + col) := by
            intro hp
            exact hno ⟨0, by omega, by omega, hbit0, by omega⟩
          have hnorest : ¬ ∃ j2, j2 < n ∧ x_pos + (col + 1) + j2 < 64 ∧
              colBit ((pixel <<< 1) % 256) j2 = 1 ∧
              p = (yy % 32) * 64 + (x_pos + (col + 1) + j2) := by
            rintro ⟨j2, h1, h2, h3, h4⟩
            exact hno ⟨j2 + 1, by omega, by omega, by rw [colBit_step]; exact h3, by omega⟩
          rw [(ih _ ((pixel <<< 1) % 256) (col + 1) p).2 hnorest, hscreen1 p, if_neg hpne]

/-! ### Characterization of the DXYN row loop -/

/-- Total version of `drawRows` (the memory reads replaced by direct
lookups), equal to `drawRows` whenever the sprite rows lie inside
memory. -/
def drawRowsT (c : Cpu) (x_pos y_pos row : Nat) : Nat → Cpu
  | 0 => c
  | count + 1 =>
    if SCREEN_HEIGHT ≤ y_pos + row then c
    else
      drawRowsT (drawCols c x_pos (y_pos + row) (c.memory (c.i + row)) 0 8)
        x_pos y_pos (row + 1) count

theorem drawRows_eq_total (x_pos y_pos : Nat) :
    ∀ count c row, (∀ r, r < count → c.i + (row + r) < 4096) →
      drawRows c x_pos y_pos row count = .ok (drawRowsT c x_pos y_pos row count) := by
  intro count
  induction count with
  | zero => intro c row _; rfl
  | succ n ih =>
    intro c row hb
    simp only [drawRows, drawRowsT]
    by_cases hbr : SCREEN_HEIGHT ≤ y_pos + row
    · rw [if_pos hbr, if_pos hbr]
    · rw [if_neg hbr, if_neg hbr]
      have hlt : c.i + row < 4096 := by
        have := hb 0 (by omega)
        omega
      have hmod : (c.i + row) % 65536 = c.i + row := Nat.mod_eq_of_lt (by omega)
      unfold Cpu.read
      rw [hmod, if_pos hlt]
      have hi1 : (drawCols c x_pos (y_pos + row) (c.memory (c.i + row)) 0 8).i = c.i :=
        (drawCols_fields x_pos (y_pos + row) 8 c (c.memory (c.i + row)) 0).2.2.1
      have hb1 : ∀ r, r < n →
          (drawCols c x_pos (y_pos + row) (c.memory (c.i + row)) 0 8).i + (row + 1 + r) < 4096 := by
        intro r hr
        rw [hi1]
        have := hb (r + 1) (by omega)
        omega
      rw [show Except.bind (Except.ok (c.memory (c.i + row)))
          (fun pixel => drawRows (drawCols c x_pos (y_pos + row) pixel 0 8) x_pos y_pos (row + 1) n) =
          drawRows (drawCols c x_pos (y_pos + row) (c.memory (c.i + row)) 0 8) x_pos y_pos (row + 1) n
        from rfl]
      exact ih _ (row + 1) hb1

theorem drawRowsT_fields (x_pos y_pos : Nat) :
    ∀ count c row, eqExceptScreenV (drawRowsT c x_pos y_pos row count) c := by
  intro count
  induction count with
  | zero => intro c row; exact eqExceptScreenV_refl c
  | succ n ih =>
    intro c row
    simp only [drawRowsT]
    by_cases hbr : SCREEN_HEIGHT ≤ y_pos + row
    · rw [if_pos hbr]
      exact eqExceptScreenV_refl c
    · rw [if_neg hbr]
      exact eqExceptScreenV_trans (ih _ (row + 1))
        (drawCols_fields x_pos (y_pos + row) 8 c (c.memory (c.i + row)) 0)

theorem drawRowsT_v_ne (x_pos y_pos : Nat) :
    ∀ count c row r, r ≠ 15 →
      (drawRowsT c x_pos y_pos row count).v r = c.v r := by
  intro count
  induction count with
  | zero => intro c row r _; rfl
  | succ n ih =>
    intro c row r hr
    simp only [drawRowsT]
    by_cases hbr : SCREEN_HEIGHT ≤ y_pos + row
    · rw [if_pos hbr]
    · rw [if_neg hbr]
      rw [ih _ (row + 1) r hr]
      exact drawCols_v_ne x_pos (y_pos + row) 8 c (c.memory (c.i + row)) 0 r hr

theorem drawRowsT_v15 (x_pos y_pos : Nat) :
    ∀ count c row,
      ((∃ r, r < count ∧ y_pos + (row + r) < 32 ∧ ∃ j, j < 8 ∧ x_pos + j < 64 ∧
          colBit (c.memory (c.i + (row + r))) j = 1) →
        (drawRowsT c x_pos y_pos row count).v 15 = 1) ∧
      ((¬ ∃ r, r < count ∧ y_pos + (row + r) < 32 ∧ ∃ j, j < 8 ∧ x_pos + j < 64 ∧
          colBit (c.memory (c.i + (row + r))) j = 1) →
        (drawRowsT c x_pos y_pos row count).v 15 = c.v 15) := by
  intro count
  induction count with
  | zero =>
    intro c row
    exact ⟨fun ⟨r, hr, _, _⟩ => absurd hr (by omega), fun _ => rfl⟩
  | succ n ih =>
    intro c row
    simp only [drawRowsT]
    by_cases hbr : SCREEN_HEIGHT ≤ y_pos + row
    · rw [if_pos hbr]
      have hbr' : 32 ≤ y_pos + row := hbr
      exact ⟨fun ⟨r, _, hrow, _⟩ => absurd hrow (by omega), fun _ => rfl⟩
    · rw [if_neg hbr]
      have hbr' : y_pos + row < 32 := Nat.lt_of_not_le hbr
      set c1 := drawCols c x_pos (y_pos + row) (c.memory (c.i + row)) 0 8 with hc1
      have hf := drawCols_fields x_pos (y_pos + row) 8 c (c.memory (c.i + row)) 0
      have hmem : c1.memory = c.memory := hf.1
      have hi : c1.i = c.i := hf.2.2.1
      have hcv := drawCols_v15 x_pos (y_pos + row) 8 c (c.memory (c.i + row)) 0
      constructor
      · rintro ⟨r, hr, hrow, j, hj, hjb, hbit⟩
        cases r with
        | zero =>
          have hbit0 : colBit (c.memory (c.i + row)) j = 1 := by
            rw [show row + 0 = row from by omega] at hbit
            exact hbit
          by_cases hrest : ∃ r2, r2 < n ∧ y_pos + (row + 1 + r2) < 32 ∧ ∃ j2, j2 < 8 ∧
              x_pos + j2 < 64 ∧ colBit (c1.memory (c1.i + (row + 1 + r2))) j2 = 1
          · exact (ih c1 (row + 1)).1 hrest
          · rw [(ih c1 (row + 1)).2 hrest]
            exact hcv.1 ⟨j, hj, by omega, hbit0⟩
        | succ r2 =>
          refine (ih c1 (row + 1)).1 ⟨r2, by omega, by omega, j, hj, hjb, ?_⟩
          rw [hmem, hi, show row + 1 + r2 = row + (r2 + 1) from by omega]
          exact hbit
      · intro hno
        have hnorest : ¬ ∃ r2, r2 < n ∧ y_pos + (row + 1 + r2) < 32 ∧ ∃ j2, j2 < 8 ∧
            x_pos + j2 < 64 ∧ colBit (c1.memory (c1.i + (row + 1 + r2))) j2 = 1 := by
          rintro ⟨r2, h1, h2, j2, h3, h4, h5⟩
          rw [hmem, hi] at h5
          refine hno ⟨r2 + 1, by omega, by omega, j2, h3, h4, ?_⟩
          rw [show row + (r2 + 1) = row + 1 + r2 from by omega]
          exact h5
        rw [(ih c1 (row + 1)).2 hnorest]
        apply hcv.2
        rintro ⟨j, hj, hjb, hbit⟩
        refine hno ⟨0, by omega, by omega, j, hj, by omega, ?_⟩
        rw [show row + 0 = row from by omega]
        exact hbit

theorem drawRowsT_screen (x_pos y_pos : Nat) :
    ∀ count c row p,
      ((∃ r, r < count ∧ y_pos + (row + r) < 32 ∧ ∃ j, j < 8 ∧ x_pos + j < 64 ∧
          colBit (c.memory (c.i + (row + r))) j = 1 ∧
          p = (y_pos + (row + r)) * 64 + (x_pos + j)) →
        (drawRowsT c x_pos y_pos row count).screen p = c.screen p ^^^ 255) ∧
      ((¬ ∃ r, r < count ∧ y_pos + (row + r) < 32 ∧ ∃ j, j < 8 ∧ x_pos + j < 64 ∧
          colBit (c.memory (c.i + (row + r))) j = 1 ∧
          p = (y_pos + (row + r)) * 64 + (x_pos + j)) →
        (drawRowsT c x_pos y_pos row count).screen p = c.screen p) := by
  intro count
  induction count with
  | zero =>
    intro c row p
    exact ⟨fun ⟨r, hr, _, _⟩ => absurd hr (by omega), fun _ => rfl⟩
  | succ n ih =>
    intro c row p
    simp only [drawRowsT]
    by_cases hbr : SCREEN_HEIGHT ≤ y_pos + row
    · rw [if_pos hbr]
      have hbr' : 32 ≤ y_pos + row := hbr
      exact ⟨fun ⟨r, _, hrow, _⟩ => absurd hrow (by omega), fun _ => rfl⟩
    · rw [if_neg hbr]
      have hbr' : y_pos + row < 32 := Nat.lt_of_not_le hbr
      have hmodr : (y_pos + row) % 32 = y_pos + row := Nat.mod_eq_of_lt hbr'
      set c1 := drawCols c x_pos (y_pos + row) (c.memory (c.i + row)) 0 8 with hc1
      have hf := drawCols_fields x_pos (y_pos + row) 8 c (c.memory (c.i + row)) 0
      have hmem : c1.memory = c.memory := hf.1
      have hi : c1.i = c.i := hf.2.2.1
      have hcs := drawCols_screen x_pos (y_pos + row) 8 c (c.memory (c.i + row)) 0 p
      constructor
      · rintro ⟨r, hr, hrow, j, hj, hjb, hbit, hp⟩
        cases r with
        | zero =>
          have hbit0 : colBit (c.memory (c.i + row)) j = 1 := by
            rw [show row + 0 = row from by omega] at hbit
            exact hbit
          have hnorest : ¬ ∃ r2, r2 < n ∧ y_pos + (row + 1 + r2) < 32 ∧ ∃ j2, j2 < 8 ∧
              x_pos + j2 < 64 ∧ colBit (c1.memory (c1.i + (row + 1 + r2))) j2 = 1 ∧
              p = (y_pos + (row + 1 + r2)) * 64 + (x_pos + j2) := by
            rintro ⟨r2, h1, h2, j2, h3, h4, h5, h6⟩
            omega
          rw [(ih c1 (row + 1) p).2 hnorest]
          refine hcs.1 ⟨j, hj, by omega, hbit0, ?_⟩
          rw [hmodr]
          omega
        | succ r2 =>
          have h1 : (drawRowsT c1 x_pos y_pos (row + 1) n).screen p = c1.screen p ^^^ 255 := by
            refine (ih c1 (row + 1) p).1 ⟨r2, by omega, by omega, j, hj, hjb, ?_, by omega⟩
            rw [hmem, hi, show row + 1 + r2 = row + (r2 + 1) from by omega]
            exact hbit
          have h2 : c1.screen p = c.screen p := by
            apply hcs.2
            rintro ⟨j2, hj2, hjb2, hbit2, hp2⟩
            rw [hmodr] at hp2
            omega
          rw [h1, h2]
      · intro hno
        have hnorest : ¬ ∃ r2, r2 < n ∧ y_pos + (row + 1 + r2) < 32 ∧ ∃ j2, j2 < 8 ∧
            x_pos + j2 < 64 ∧ colBit (c1.memory (c1.i + (row + 1 + r2))) j2 = 1 ∧
            p = (y_pos + (row + 1 + r2)) * 64 + (x_pos + j2) := by
          rintro ⟨r2, h1, h2, j2, h3, h4, h5, h6⟩
          rw [hmem, hi] at h5
          refine hno ⟨r2 + 1, by omega, by omega, j2, h3, h4, ?_, by omega⟩
          rw [show row + (r2 + 1) = row + 1 + r2 from by omega]
          exact h5
        have h2 : c1.screen p = c.screen p := by
          apply hcs.2
          rintro ⟨j2, hj2, hjb2, hbit2, hp2⟩
          rw [hmodr] at hp2
          refine hno ⟨0, by omega, by omega, j2, hj2, by omega, ?_, by omega⟩
          rw [show row + 0 = row from by omega]
          exact hbit2
        rw [(ih c1 (row + 1) p).2 hnorest, h2]

/-- When the sprite rows lie inside memory, DXYN succeeds and its result
is the total draw function (with VF first cleared, the draw flag set and
PC advanced). -/
theorem dxyn_ok (c : Cpu) (x y n : Nat) (hb : c.i + n ≤ 4096) :
    op_dxyn c x y n = .ok (inc_pc
      { drawRowsT (setV c 0xF 0) (c.v x % SCREEN_WIDTH) (c.v y % SCREEN_HEIGHT) 0 n with
        draw_flag := true }) := by
  have hi : (setV c 0xF 0).i = c.i := rfl
  have hbs : ∀ r, r < n → (setV c 0xF 0).i + (0 + r) < 4096 := by
    intro r hr
    omega
  simp only [op_dxyn]
  rw [drawRows_eq_total (c.v x % SCREEN_WIDTH) (c.v y % SCREEN_HEIGHT) n (setV c 0xF 0) 0 hbs]
  rfl

/-! ### C6: drawing the same sprite twice restores the screen -/

/-- C6: executing the same DXYN draw twice in succession (same position
registers, selectors other than VF whose value the draw itself changes,
and an in-memory sprite) toggles every touched pixel back to its state
before the first draw — the screen after the second draw equals the
original screen everywhere — and whenever the first draw turned some
pixel on, VF is 1 after the second draw. -/
theorem c6_draw_twice (c c1 c2 : Cpu) (x y n : Nat) (hx : x < 16) (hy : y < 16)
    (hx15 : x ≠ 15) (hy15 : y ≠ 15) (hn : n < 16) (hb : c.i + n ≤ 4096)
    (h1 : op_dxyn c x y n = .ok c1) (h2 : op_dxyn c1 x y n = .ok c2) :
    (∀ p, c2.screen p = c.screen p) ∧
    (∀ p, c.screen p = 0 → c1.screen p ≠ 0 → c2.v 15 = 1) := by
  rw [dxyn_ok c x y n hb] at h1
  have hc1 : c1 = inc_pc
      { drawRowsT (setV c 0xF 0) (c.v x % SCREEN_WIDTH) (c.v y % SCREEN_HEIGHT) 0 n with
        draw_flag := true } := (Except.ok.inj h1).symm
  have hT1f := drawRowsT_fields (c.v x % SCREEN_WIDTH) (c.v y % SCREEN_HEIGHT) n (setV c 0xF 0) 0
  have hc1mem : c1.memory = c.memory := by rw [hc1]; exact hT1f.1
  have hc1i : c1.i = c.i := by rw [hc1]; exact hT1f.2.2.1
  have hc1vx : c1.v x = c.v x := by
    rw [hc1]
    show (drawRowsT (setV c 0xF 0) (c.v x % SCREEN_WIDTH) (c.v y % SCREEN_HEIGHT) 0 n).v x = c.v x
    rw [drawRowsT_v_ne (c.v x % SCREEN_WIDTH) (c.v y % SCREEN_HEIGHT) n (setV c 0xF 0) 0 x hx15]
    exact setV_v_ne c 0xF 0 x hx15
  have hc1vy : c1.v y = c.v y := by
    rw [hc1]
    show (drawRowsT (setV c 0xF 0) (c.v x % SCREEN_WIDTH) (c.v y % SCREEN_HEIGHT) 0 n).v y = c.v y
    rw [drawRowsT_v_ne (c.v x % SCREEN_WIDTH) (c.v y % SCREEN_HEIGHT) n (setV c 0xF 0) 0 y hy15]
    exact setV_v_ne c 0xF 0 y hy15
  have hb1 : c1.i + n ≤ 4096 := by omega
  rw [dxyn_ok c1 x y n hb1] at h2
  rw [hc1vx, hc1vy] at h2
  have hc2 : c2 = inc_pc
      { drawRowsT (setV c1 0xF 0) (c.v x % SCREEN_WIDTH) (c.v y % SCREEN_HEIGHT) 0 n with
        draw_flag := true } := (Except.ok.inj h2).symm
  have hmem2 : (setV c1 0xF 0).memory = c.memory := hc1mem
  have hi2 : (setV c1 0xF 0).i = c.i := hc1i
  -- the touched set, phrased over the original state
  have hscr1 : ∀ p,
      ((∃ r, r < n ∧ c.v y % SCREEN_HEIGHT + (0 + r) < 32 ∧ ∃ j, j < 8 ∧
          c.v x % SCREEN_WIDTH + j < 64 ∧ colBit (c.memory (c.i + (0 + r))) j = 1 ∧
          p = (c.v y % SCREEN_HEIGHT + (0 + r)) * 64 + (c.v x % SCREEN_WIDTH + j)) →
        c1.screen p = c.screen p ^^^ 255) ∧
      ((¬ ∃ r, r < n ∧ c.v y % SCREEN_HEIGHT + (0 + r) < 32 ∧ ∃ j, j < 8 ∧
          c.v x % SCREEN_WIDTH + j < 64 ∧ colBit (c.memory (c.i + (0 + r))) j = 1 ∧
          p = (c.v y % SCREEN_HEIGHT + (0 + r)) * 64 + (c.v x % SCREEN_WIDTH + j)) →
        c1.screen p = c.screen p) := by
    intro p
    have h := drawRowsT_screen (c.v x % SCREEN_WIDTH) (c.v y % SCREEN_HEIGHT) n (setV c 0xF 0) 0 p
    constructor
    · intro hp
      rw [hc1]
      exact h.1 hp
    · intro hp
      rw [hc1]
      exact h.2 hp
  have hscr2 : ∀ p,
      ((∃ r, r < n ∧ c.v y % SCREEN_HEIGHT + (0 + r) < 32 ∧ ∃ j, j < 8 ∧
          c.v x % SCREEN_WIDTH + j < 64 ∧ colBit (c.memory (c.i + (0 + r))) j = 1 ∧
          p = (c.v y % SCREEN_HEIGHT + (0 + r)) * 64 + (c.v x % SCREEN_WIDTH + j)) →
        c2.screen p = c1.screen p ^^^ 255) ∧
      ((¬ ∃ r, r < n ∧ c.v y % SCREEN_HEIGHT + (0 + r) < 32 ∧ ∃ j, j < 8 ∧
          c.v x % SCREEN_WIDTH + j < 64 ∧ colBit (c.memory (c.i + (0 + r))) j = 1 ∧
          p = (c.v y % SCREEN_HEIGHT + (0 + r)) * 64 + (c.v x % SCREEN_WIDTH + j)) →
        c2.screen p = c1.screen p) := by
    intro p
    have h := drawRowsT_screen (c.v x % SCREEN_WIDTH) (c.v y % SCREEN_HEIGHT) n (setV c1 0xF 0) 0 p
    rw [hmem2, hi2] at h
    constructor
    · intro hp
      rw [hc2]
      exact h.1 hp
    · intro hp
      rw [hc2]
      exact h.2 hp
  constructor
  · intro p
    by_cases hp : ∃ r, r < n ∧ c.v y % SCREEN_HEIGHT + (0 + r) < 32 ∧ ∃ j, j < 8 ∧
        c.v x % SCREEN_WIDTH + j < 64 ∧ colBit (c.memory (c.i + (0 + r))) j = 1 ∧
        p = (c.v y % SCREEN_HEIGHT + (0 + r)) * 64 + (c.v x % SCREEN_WIDTH + j)
    · rw [(hscr2 p).1 hp, (hscr1 p).1 hp, Nat.xor_cancel_right]
    · rw [(hscr2 p).2 hp, (hscr1 p).2 hp]
  · intro p hp0 hp1
    have hhit : ∃ r, r < n ∧ c.v y % SCREEN_HEIGHT + (0 + r) < 32 ∧ ∃ j, j < 8 ∧
        c.v x % SCREEN_WIDTH + j < 64 ∧ colBit (c.memory (c.i + (0 + r))) j = 1 ∧
        p = (c.v y % SCREEN_HEIGHT + (0 + r)) * 64 + (c.v x % SCREEN_WIDTH + j) := by
      by_contra hno
      rw [(hscr1 p).2 hno, hp0] at hp1
      exact hp1 rfl
    obtain ⟨r, hr, hrow, j, hj, hjb, hbit, _⟩ := hhit
    have hv := drawRowsT_v15 (c.v x % SCREEN_WIDTH) (c.v y % SCREEN_HEIGHT) n (setV c1 0xF 0) 0
    rw [hmem2, hi2] at hv
    have h15 : (drawRowsT (setV c1 0xF 0) (c.v x % SCREEN_WIDTH) (c.v y % SCREEN_HEIGHT) 0 n).v 15 = 1 :=
      hv.1 ⟨r, hr, hrow, j, hj, hjb, hbit⟩
    rw [hc2]
    exact h15

/-- Extract the success state of a step outcome (default on error). -/
def okState (e : Except CpuError Cpu) (d : Cpu) : Cpu :=
  match e with
  | .ok c => c
  | .error _ => d

/-- State for the C6 witness: a one-row sprite `0x80` at I = 0x300,
drawn at position (0, 0). -/
def c6state : Cpu :=
  { baseCpu with i := 0x300, memory := fun a => if a = 0x300 then 0x80 else 0 }

/-- The state after the first C6 draw. -/
def c6one : Cpu := okState (op_dxyn c6state 0 1 1) c6state

/-- The state after the second C6 draw. -/
def c6two : Cpu := okState (op_dxyn c6one 0 1 1) c6state

/-- C6 witness: drawing the sprite twice restores pixel 0 (which the
first draw turned on), and VF is 1 after the second draw. -/
theorem c6_draw_twice_witness :
    c6two.screen 0 = c6state.screen 0 ∧ c6two.v 15 = 1 := by
  have h1 : op_dxyn c6state 0 1 1 = .ok c6one := rfl
  have h2 : op_dxyn c6one 0 1 1 = .ok c6two := rfl
  have h := c6_draw_twice c6state c6one c6two 0 1 1 (by decide) (by decide) (by decide)
    (by decide) (by decide) (by decide) h1 h2
  exact ⟨h.1 0, h.2 0 rfl (by decide)⟩

/-! ### C7: sprites are clipped at the screen edges -/

/-- C7: for a DXYN draw whose start position plus the 8-column width or
N-row height exceeds the 64 by 32 grid, only the in-bounds portion is
drawn: every pixel outside the rectangle from (VX mod 64, VY mod 32) of
width 8 and height N — in particular every pixel an out-of-bounds
column or row would reach by wrapping to the opposite edge — is
unchanged. -/
theorem c7_clipping (c c' : Cpu) (x y n px py : Nat) (hx : x < 16) (hy : y < 16)
    (hn : n < 16) (hb : c.i + n ≤ 4096)
    (h1 : op_dxyn c x y n = .ok c')
    (hpx : px < 64) (hpy : py < 32)
    (hover : 64 < c.v x % 64 + 8 ∨ 32 < c.v y % 32 + n)
    (hout : px < c.v x % 64 ∨ c.v x % 64 + 8 ≤ px ∨ py < c.v y % 32 ∨ c.v y % 32 + n ≤ py) :
    c'.screen (py * 64 + px) = c.screen (py * 64 + px) := by
  rw [dxyn_ok c x y n hb] at h1
  have hc' : c' = inc_pc
      { drawRowsT (setV c 0xF 0) (c.v x % SCREEN_WIDTH) (c.v y % SCREEN_HEIGHT) 0 n with
        draw_flag := true } := (Except.ok.inj h1).symm
  rw [show SCREEN_WIDTH = 64 from rfl, show SCREEN_HEIGHT = 32 from rfl] at hc'
  have h := drawRowsT_screen (c.v x % 64) (c.v y % 32) n (setV c 0xF 0) 0 (py * 64 + px)
  have hno : ¬ ∃ r, r < n ∧ c.v y % 32 + (0 + r) < 32 ∧ ∃ j, j < 8 ∧ c.v x % 64 + j < 64 ∧
      colBit ((setV c 0xF 0).memory ((setV c 0xF 0).i + (0 + r))) j = 1 ∧
      py * 64 + px = (c.v y % 32 + (0 + r)) * 64 + (c.v x % 64 + j) := by
    rintro ⟨r, hr, hrow, j, hj, hjb, _, hp⟩
    omega
  rw [hc']
  exact h.2 hno

/-- State for the C7 witness: a one-row sprite `0xFF` at I = 0x300,
drawn at position (60, 0), so its last four columns fall past the right
edge. -/
def c7state : Cpu :=
  { baseCpu with
    i := 0x300
    memory := fun a => if a = 0x300 then 0xFF else 0
    v := fun j => if j = 0 then 60 else 0 }

/-- The state after the C7 draw. -/
def c7one : Cpu := okState (op_dxyn c7state 0 1 1) c7state

/-- C7 witness: the clipped draw at (60, 0) leaves pixel (0, 0) — where
a wrapping draw would have landed column 64 — unchanged. -/
theorem c7_clipping_witness : c7one.screen 0 = c7state.screen 0 := by
  have h1 : op_dxyn c7state 0 1 1 = .ok c7one := rfl
  exact c7_clipping c7state c7one 0 1 1 0 0 (by decide) (by decide) (by decide) (by decide)
    h1 (by decide) (by decide) (by decide) (by decide)
